import Mathlib

/-!
Verification of the schema-description and data-validation layer of
`pymilvus/orm/schema.py`: field and collection descriptors, their
construction-time consistency checks, serialization round-trips, and the
insert-time type-inference and reconciliation engine.

The embedding is shallow: Python classes become structures, constructors
become `Except`-valued functions (a raised exception is an `error`), and
the type-system collaborator (`orm/types.py`, outside the sources at hand)
is abstracted into explicit function parameters (`mapNative`, `infer`,
`vlen`) exactly as the spec treats it ("a black-box type-mapping
function").  Keyword-argument bags become explicit option records; the
wrong-type branches of the source (e.g. a non-bool `is_primary`) are
unrepresentable in the typed embedding and therefore vacuous here.
-/

set_option maxHeartbeats 1000000

deriving instance DecidableEq for Except

/-- The data-type enumeration of the type-system collaborator
(`DataType` in `orm/types.py`).  Only the constructor names matter for
`schema.py`; the numeric values are never used there. -/
inductive DataType where
  | NONE | BOOL | INT8 | INT16 | INT32 | INT64
  | FLOAT | DOUBLE | STRING | VARCHAR | ARRAY | JSON
  | BINARY_VECTOR | FLOAT_VECTOR | UNKNOWN
  deriving DecidableEq, Repr

/-- A plain Python value usable as a type parameter (such as `dim = 128`
or `max_length = 65535`). -/
inductive PVal where
  | i (n : Int)
  | s (st : String)
  deriving DecidableEq, Repr

/-- The wire representation of a default value: a tagged union with one
active variant (`schema_pb2.ValueField` with a set `data` oneof).  A
`ValueField` whose oneof is unset is modelled as `Option.none` at the use
sites. -/
inductive ValueData where
  | bool_data (b : Bool)
  | int_data (n : Int)
  | long_data (n : Int)
  | string_data (s : String)
  deriving DecidableEq, Repr

/-- A plain Python scalar supplied as a default value.  `nonScalar`
stands for any input for which `pandas.api.types.is_scalar` is false. -/
inductive ScalarVal where
  | b (x : Bool)
  | i64 (x : Int)
  | s (x : String)
  | nonScalar
  deriving DecidableEq, Repr

/-- The `default_value` keyword as received by `FieldSchema.__init__`:
absent/None, an already-tagged `ValueField` (possibly with no variant
set), or a plain scalar. -/
inductive DefaultInput where
  | pynone
  | valueField (data : Option ValueData)
  | scalar (sv : ScalarVal)
  deriving DecidableEq, Repr

/-- The exceptions of `pymilvus.exceptions` raised by `schema.py`.  The
`dataNotMatch*` constructors carry the data that the source interpolates
into the message string.  `pyAttributeError` and `pyRuntimeError` model
uncaught Python exceptions (AttributeError / IndexError / TypeError)
escaping from the source. -/
inductive SchemaError where
  | dataTypeNotSupport
  | primaryKey
  | partitionKey
  | autoID
  | paramError
  | cannotInferSchema
  | dataNotMatchCount (expected got : List String)
  | dataNotMatchType (fieldName : String) (expected got : DataType)
  | dataNotMatchName (expected got : String)
  | dataNotMatchAutoId (fieldName : String)
  | schemaNotReady
  | upsertAutoIDTrue
  | pyAttributeError
  | pyRuntimeError
  deriving DecidableEq, Repr

/-- Whether an error is a `DataNotMatchException`. -/
def SchemaError.isDataNotMatch : SchemaError → Bool
  | .dataNotMatchCount _ _ => true
  | .dataNotMatchType _ _ _ => true
  | .dataNotMatchName _ _ => true
  | .dataNotMatchAutoId _ => true
  | _ => false

/-- Modelled from the spec: the fixed recognized set of type-parameter
keywords (`COMMON_TYPE_PARAMS` in `orm/constants.py`, outside the sources
at hand; the spec calls it "a fixed recognized set (e.g.
dimensionality)"). -/
def COMMON_TYPE_PARAMS : List String := ["dim", "max_length"]

/-- `FieldSchema._parse_type_params`: for vector and varchar dtypes,
retain the recognized keyword parameters verbatim, in
`COMMON_TYPE_PARAMS` order; all other dtypes get an empty map.  (The
source's early return on an empty kwargs dict yields the same empty
result.) -/
def parseTypeParams (dtype : DataType) (kws : List (String × PVal)) : List (String × PVal) :=
  if dtype = .BINARY_VECTOR ∨ dtype = .FLOAT_VECTOR ∨ dtype = .VARCHAR then
    COMMON_TYPE_PARAMS.filterMap (fun k => (kws.lookup k).map (fun v => (k, v)))
  else []

/-- Modelled from the spec: the scalar-type inference collaborator
(`infer_dtype_by_scaladata` in `orm/types.py`, outside the sources at
hand; the spec names it `infer_scalar_type(value) → DataType`).  A bool
infers BOOL, an int INT64, a string VARCHAR; non-scalars stay UNKNOWN. -/
def infer_dtype_by_scaladata : ScalarVal → DataType
  | .b _ => .BOOL
  | .i64 _ => .INT64
  | .s _ => .VARCHAR
  | .nonScalar => .UNKNOWN

/-- `infer_default_value_bydata`: wrap a plain scalar into the tagged
wire representation according to its inferred scalar type; `None` stays
`None`; anything whose inferred type is unsupported raises `ParamError`.
(The INT8/16/32, FLOAT and DOUBLE branches of the source are unreachable
for the modelled scalars.) -/
def infer_default_value_bydata : Option ScalarVal → Except SchemaError (Option ValueData)
  | none => .ok none
  | some sv =>
    match infer_dtype_by_scaladata sv, sv with
    | .BOOL, .b x => .ok (some (.bool_data x))
    | .INT64, .i64 x => .ok (some (.long_data x))
    | .VARCHAR, .s x => .ok (some (.string_data x))
    | _, _ => .error .paramError

/-- The `default_value` handling of `FieldSchema.__init__`: an
already-tagged `ValueField` with no variant set collapses to no default;
one with a variant is kept; anything else goes through
`infer_default_value_bydata`. -/
def resolveDefault : DefaultInput → Except SchemaError (Option ValueData)
  | .valueField none => .ok none
  | .valueField (some v) => .ok (some v)
  | .pynone => infer_default_value_bydata none
  | .scalar sv => infer_default_value_bydata (some sv)

/-- A constructed field descriptor (`FieldSchema` instance state). -/
structure FieldSchema where
  name : String
  dtype : DataType
  description : String
  type_params : List (String × PVal)
  is_primary : Bool
  is_dynamic : Bool
  auto_id : Bool
  is_partition_key : Bool
  default_value : Option ValueData
  deriving DecidableEq, Repr

/-- The keyword arguments accepted by `FieldSchema.__init__`.  `none`
models an absent keyword (presence matters for `auto_id`, whose
consistency check only runs when the keyword was supplied).
`type_kwargs` holds the remaining keywords, from which
`_parse_type_params` extracts the recognized type parameters. -/
structure FKwargs where
  is_primary : Option Bool
  is_dynamic : Option Bool
  auto_id : Option Bool
  is_partition_key : Option Bool
  default_value : DefaultInput
  type_kwargs : List (String × PVal)
  deriving DecidableEq, Repr

/-- No keyword arguments supplied. -/
def emptyFKw : FKwargs := ⟨none, none, none, none, .pynone, []⟩

/-- `FieldSchema.__init__`: reject the UNKNOWN dtype; reject
`auto_id=True` supplied together with a false/absent `is_primary`;
resolve the default value; extract type parameters. -/
def FieldSchema.init (name : String) (dtype : DataType) (description : String)
    (kw : FKwargs) : Except SchemaError FieldSchema :=
  if dtype = .UNKNOWN then .error .dataTypeNotSupport
  else
    let is_primary := kw.is_primary.getD false
    let is_dynamic := kw.is_dynamic.getD false
    let auto_id := kw.auto_id.getD false
    if kw.auto_id.isSome && (!is_primary && auto_id) then .error .primaryKey
    else
      let is_partition_key := kw.is_partition_key.getD false
      match resolveDefault kw.default_value with
      | .error e => .error e
      | .ok dv =>
        .ok { name := name, dtype := dtype, description := description,
              type_params := parseTypeParams dtype kw.type_kwargs,
              is_primary := is_primary, is_dynamic := is_dynamic,
              auto_id := auto_id, is_partition_key := is_partition_key,
              default_value := dv }

/-- The plain-dict serialization of a field (`FieldSchema.to_dict`).
`ftype` is the dict key `"type"`; `Option` fields model optional dict
keys. -/
structure FieldDict where
  name : String
  description : String
  ftype : DataType
  params : Option (List (String × PVal))
  is_primary : Option Bool
  auto_id : Option Bool
  is_partition_key : Option Bool
  default_value : Option ValueData
  is_dynamic : Option Bool
  deriving DecidableEq, Repr

/-- `FieldSchema.to_dict`: optional keys are present only when
truthy (params non-empty, flags set); `auto_id` accompanies
`is_primary`. -/
def FieldSchema.to_dict (f : FieldSchema) : FieldDict :=
  { name := f.name, description := f.description, ftype := f.dtype,
    params := if f.type_params.isEmpty then none else some f.type_params,
    is_primary := if f.is_primary then some true else none,
    auto_id := if f.is_primary then some f.auto_id else none,
    is_partition_key := if f.is_partition_key then some true else none,
    default_value := f.default_value,
    is_dynamic := if f.is_dynamic then some f.is_dynamic else none }

/-- `FieldSchema.construct_from_dict`: rebuild the keyword bag from the
dict (params merged into kwargs; `auto_id` forwarded only when present)
and invoke the constructor. -/
def FieldSchema.construct_from_dict (raw : FieldDict) : Except SchemaError FieldSchema :=
  FieldSchema.init raw.name raw.ftype raw.description
    { is_primary := some (raw.is_primary.getD false),
      is_dynamic := some (raw.is_dynamic.getD false),
      auto_id := raw.auto_id,
      is_partition_key := some (raw.is_partition_key.getD false),
      default_value := match raw.default_value with
        | some v => .valueField (some v)
        | none => .pynone,
      type_kwargs := raw.params.getD [] }

/-- `FieldSchema.__getattr__`: the fallback attribute lookup consulted
only for names that are not ordinary attributes.  Returns the stored
type parameter when present, and Python `None` (here `Option.none`)
otherwise — never an AttributeError. -/
def FieldSchema.getattr (f : FieldSchema) (item : String) : Option PVal :=
  if ¬ f.type_params.isEmpty ∧ (f.type_params.lookup item).isSome then
    f.type_params.lookup item
  else none

/-- The invariants `FieldSchema.__init__` establishes on every field it
returns: a known dtype, `auto_id` only on primary fields, and type
parameters in the canonical parsed form. -/
def FieldSchema.WF (f : FieldSchema) : Prop :=
  f.dtype ≠ .UNKNOWN ∧ (f.auto_id = true → f.is_primary = true) ∧
  f.type_params = parseTypeParams f.dtype f.type_params

instance (f : FieldSchema) : Decidable f.WF := by
  unfold FieldSchema.WF; infer_instance

/-- `validate_primary_key`: a primary field must exist and have dtype
INT64 or VARCHAR. -/
def validate_primary_key (primary_field : Option FieldSchema) : Except SchemaError Unit :=
  match primary_field with
  | none => .error .primaryKey
  | some f =>
    if f.dtype = .INT64 ∨ f.dtype = .VARCHAR then .ok () else .error .primaryKey

/-- `validate_partition_key`.  NOTE: the source builds
`PartitionKeyException(...)` in the branch where the partition-key field
name equals the primary field name but never raises it, so that branch
is a no-op here as well (the comment in the source states the intent to
disallow it). -/
def validate_partition_key (partition_key_field_name : Option String)
    (partition_key_field : Option FieldSchema) (primary_field_name : String) :
    Except SchemaError Unit :=
  match partition_key_field with
  | some f =>
    -- `if partition_key_field.name == primary_field_name:` constructs an
    -- exception without raising it: dead code, no effect.
    if f.dtype = .INT64 ∨ f.dtype = .VARCHAR then .ok () else .error .partitionKey
  | none =>
    match partition_key_field_name with
    | some _ => .error .partitionKey
    | none => .ok ()

/-- The keyword arguments accepted by `CollectionSchema.__init__`
(typed, so the wrong-type branches of `_check_kwargs` are vacuous). -/
structure CKwargs where
  primary_field : Option String
  partition_key_field : Option String
  auto_id : Option Bool
  enable_dynamic_field : Option Bool
  check_fields : Option Bool
  deriving DecidableEq, Repr

/-- No keyword arguments supplied. -/
def emptyCKw : CKwargs := ⟨none, none, none, none, none⟩

/-- Mutable loop state of `CollectionSchema._check_fields`:
`pfName`/`pkName` are the evolving `primary_field_name` /
`partition_key_field_name` locals; `pIdx`/`pkIdx` record which list
element `self._primary_field` / `self._partition_key_field` alias. -/
structure ChkSt where
  pfName : Option String
  pkName : Option String
  pIdx : Option Nat
  pkIdx : Option Nat
  deriving DecidableEq, Repr

/-- `if primary_field_name == field.name: field.is_primary = True`. -/
def mutP (st : ChkSt) (f : FieldSchema) : FieldSchema :=
  if st.pfName = some f.name then { f with is_primary := true } else f

/-- `if partition_key_field_name == field.name: field.is_partition_key = True`. -/
def mutK (st : ChkSt) (f : FieldSchema) : FieldSchema :=
  if st.pkName = some f.name then { f with is_partition_key := true } else f

/-- The `if field.is_primary:` block of the loop body: record the field
as primary, rejecting a conflicting earlier primary name. -/
def primBlock (f : FieldSchema) (i : Nat) (st : ChkSt) : Except SchemaError ChkSt :=
  if f.is_primary then
    if st.pfName ≠ none ∧ st.pfName ≠ some f.name then .error .primaryKey
    else .ok { st with pfName := some f.name, pIdx := some i }
  else .ok st

/-- The `if field.is_partition_key:` block of the loop body. -/
def pkBlock (f : FieldSchema) (i : Nat) (st : ChkSt) : Except SchemaError ChkSt :=
  if f.is_partition_key then
    if st.pkName ≠ none ∧ st.pkName ≠ some f.name then .error .partitionKey
    else .ok { st with pkName := some f.name, pkIdx := some i }
  else .ok st

/-- One iteration of the `_check_fields` loop body on the field at
absolute index `i`: assign flags from matching hint names, then detect
conflicting primary / partition-key designations.  Returns the
(possibly flag-mutated) field and the updated state. -/
def checkStep (f₀ : FieldSchema) (i : Nat) (st : ChkSt) :
    Except SchemaError (FieldSchema × ChkSt) :=
  let f := mutK st (mutP st f₀)
  match primBlock f i st with
  | .error e => .error e
  | .ok st₁ =>
    match pkBlock f i st₁ with
    | .error e => .error e
    | .ok st₂ => .ok (f, st₂)

/-- The per-field loop of `_check_fields`; `i` is the absolute index of
the first list element.  Returns the (possibly flag-mutated) field list
and the final state. -/
def checkLoop : List FieldSchema → Nat → ChkSt → Except SchemaError (List FieldSchema × ChkSt)
  | [], _, st => .ok ([], st)
  | f₀ :: rest, i, st =>
    match checkStep f₀ i st with
    | .error e => .error e
    | .ok (f, st₂) =>
      match checkLoop rest (i + 1) st₂ with
      | .error e => .error e
      | .ok (rest', st') => .ok (f :: rest', st')

/-- Replace the element at index `i` (no-op out of range). -/
def updateAt (fs : List FieldSchema) (i : Nat) (g : FieldSchema → FieldSchema) :
    List FieldSchema :=
  match fs, i with
  | [], _ => []
  | f :: rest, 0 => g f :: rest
  | f :: rest, n + 1 => f :: updateAt rest n g

/-- `CollectionSchema._check_fields`: run the reconciliation loop, then
validate the primary and partition keys, then propagate a truthy
`auto_id` hint onto the primary field (which aliases its list entry).
Returns the final field list and the indices of the primary /
partition-key fields. -/
def checkFieldsFull (fields : List FieldSchema) (kw : CKwargs) :
    Except SchemaError (List FieldSchema × Option Nat × Option Nat) :=
  match checkLoop fields 0 ⟨kw.primary_field, kw.partition_key_field, none, none⟩ with
  | .error e => .error e
  | .ok (fs, st) =>
    match validate_primary_key (st.pIdx.bind (fun i => fs[i]?)) with
    | .error e => .error e
    | .ok _ =>
      match validate_partition_key st.pkName (st.pkIdx.bind (fun i => fs[i]?))
          ((((st.pIdx.bind (fun i => fs[i]?))).map (fun f => f.name)).getD "") with
      | .error e => .error e
      | .ok _ =>
        let fs' :=
          if kw.auto_id.getD false then
            match st.pIdx with
            | some i => updateAt fs i (fun f => { f with auto_id := true })
            | none => fs
          else fs
        .ok (fs', st.pIdx, st.pkIdx)

/-- A constructed collection descriptor (`CollectionSchema` instance
state).  `primary_field` / `partition_key_field` are the derived
pointers `_primary_field` / `_partition_key_field`. -/
structure CollectionSchema where
  fields : List FieldSchema
  description : String
  enable_dynamic_field : Bool
  primary_field : Option FieldSchema
  partition_key_field : Option FieldSchema
  deriving DecidableEq, Repr

/-- `CollectionSchema.__init__`: deep-copy of the field list is value
semantics here; `check_fields=False` skips `_check_fields` entirely and
leaves both derived pointers unset. -/
def CollectionSchema.init (fields : List FieldSchema) (description : String)
    (kw : CKwargs) : Except SchemaError CollectionSchema :=
  if kw.check_fields.getD true then
    match checkFieldsFull fields kw with
    | .error e => .error e
    | .ok (fs, pi, pki) =>
      .ok { fields := fs, description := description,
            enable_dynamic_field := kw.enable_dynamic_field.getD false,
            primary_field := pi.bind (fun i => fs[i]?),
            partition_key_field := pki.bind (fun i => fs[i]?) }
  else
    .ok { fields := fields, description := description,
          enable_dynamic_field := kw.enable_dynamic_field.getD false,
          primary_field := none, partition_key_field := none }

/-- The plain-dict serialization of a collection
(`CollectionSchema.to_dict`); `enable_dynamic_field` is present only
when true. -/
structure CollDict where
  auto_id : Bool
  description : String
  fields : List FieldDict
  enable_dynamic_field : Option Bool
  deriving DecidableEq, Repr

/-- `CollectionSchema.to_dict`.  The source reads
`self.primary_field.auto_id`, which raises an AttributeError when no
primary field was resolved; that failure is modelled as `none`. -/
def CollectionSchema.to_dict (s : CollectionSchema) : Option CollDict :=
  s.primary_field.map (fun pf =>
    { auto_id := pf.auto_id, description := s.description,
      fields := s.fields.map FieldSchema.to_dict,
      enable_dynamic_field := if s.enable_dynamic_field then some true else none })

/-- `CollectionSchema.construct_from_dict`: rebuild every field, then
construct with only the `enable_dynamic_field` keyword. -/
def CollectionSchema.construct_from_dict (raw : CollDict) :
    Except SchemaError CollectionSchema :=
  match raw.fields.mapM FieldSchema.construct_from_dict with
  | .error e => .error e
  | .ok fs =>
    CollectionSchema.init fs raw.description
      ⟨none, none, none, some (raw.enable_dynamic_field.getD false), none⟩

/-! ### The data-shape classifier (`check_is_row_based`) -/

/-- An element of a sequence payload, as far as the classifier looks at
it: a mapping or anything else. -/
inductive RowElem where
  | mapping
  | nonMapping
  deriving DecidableEq, Repr

/-- A payload as received by `check_is_row_based`: a tabular table
(`pandas.DataFrame`), a mapping, a sequence, or anything else. -/
inductive InsertPayload where
  | frame
  | mapping
  | seq (elems : List RowElem)
  | other
  deriving DecidableEq, Repr

/-- `check_is_row_based`: DataFrame → column-based, dict → row-based,
list → row-based iff its first element is a dict (empty list falls
through to column-based), anything else → `DataTypeNotSupported`. -/
def check_is_row_based : InsertPayload → Except SchemaError Bool
  | .other => .error .dataTypeNotSupport
  | .frame => .ok false
  | .mapping => .ok true
  | .seq es =>
    match es with
    | [] => .ok false
    | .mapping :: _ => .ok true
    | .nonMapping :: _ => .ok false

/-! ### The field-inference engine

`N` is the native column-type universe of the tabular library, `V` the
universe of cell values; `mapNative`, `infer` and `vlen` are the
black-box collaborators `map_numpy_dtype_to_datatype`,
`infer_dtype_bydata` and `len` of the source. -/

/-- A column of a tabular payload: label, native dtype, cell values. -/
structure Column (N V : Type) where
  name : String
  ndtype : N
  vals : List V
  deriving DecidableEq, Repr

/-- `len(df)`: the number of rows (0 for a column-less frame). -/
def nrows {N V : Type} : List (Column N V) → Nat
  | [] => 0
  | c :: _ => c.vals.length

/-- Per-column type parameters, keyed by column label (a Python dict:
insertion updates an existing key in place, otherwise appends). -/
abbrev ParamsMap : Type := List (String × List (String × PVal))

/-- Python-dict assignment `m[k] = v`. -/
def dictInsert (m : ParamsMap) (k : String) (v : List (String × PVal)) : ParamsMap :=
  if (List.lookup k m).isSome then
    m.map (fun p => if p.1 = k then (k, v) else p)
  else m ++ [(k, v)]

/-- The sampling pass of `prepare_fields_from_dataframe`: for every
column whose mapped type is UNKNOWN, infer a type from the column's
first-row value, capturing vector dimensionality (byte-count × 8 for
binary vectors, element count for float vectors) into the params map.
Walks the columns and their mapped types in lockstep. -/
def resolveCols {N V : Type} (infer : V → DataType) (vlen : V → Nat) :
    List (Column N V) → List DataType → ParamsMap → List DataType × ParamsMap
  | _, [], pm => ([], pm)
  | [], dts, pm => (dts, pm)
  | c :: cs, dt :: dts, pm =>
    if dt = .UNKNOWN then
      match c.vals.head? with
      | some v =>
        let nd := infer v
        let pm₂ :=
          if nd = .BINARY_VECTOR then dictInsert pm c.name [("dim", .i (vlen v * 8))]
          else if nd = .FLOAT_VECTOR then dictInsert pm c.name [("dim", .i (vlen v))]
          else pm
        let r := resolveCols infer vlen cs dts pm₂
        (nd :: r.1, r.2)
      | none =>
        -- a ragged frame (empty column with other rows present) cannot
        -- arise from pandas; the type stays UNKNOWN
        let r := resolveCols infer vlen cs dts pm
        (.UNKNOWN :: r.1, r.2)
    else
      let r := resolveCols infer vlen cs dts pm
      (dt :: r.1, r.2)

/-- `prepare_fields_from_dataframe`: map every column's native dtype to
the enumeration; if any is UNKNOWN, fail on an empty table, otherwise
sample the first row; fail if any column is still UNKNOWN. -/
def prepare_fields_from_dataframe {N V : Type} (mapNative : N → DataType)
    (infer : V → DataType) (vlen : V → Nat) (df : List (Column N V)) :
    Except SchemaError (List String × List DataType × ParamsMap) :=
  let data_types := df.map (fun c => mapNative c.ndtype)
  let col_names := df.map (fun c => c.name)
  let step : Except SchemaError (List DataType × ParamsMap) :=
    if DataType.UNKNOWN ∈ data_types then
      if nrows df = 0 then .error .cannotInferSchema
      else .ok (resolveCols infer vlen df data_types [])
    else .ok (data_types, [])
  match step with
  | .error e => .error e
  | .ok (dts, pm) =>
    if DataType.UNKNOWN ∈ dts then .error .cannotInferSchema
    else .ok (col_names, dts, pm)

/-- The auto-id removal pass of the row/list path (`tmp_fields.pop(i)`
inside `for i, field in enumerate(tmp_fields)`).  Python's list iterator
keeps counting over the mutated list, so after a removal the element
that slides into the removed slot is skipped; `c` is the iterator's
cursor. -/
def popAutoIdGo (fs : List FieldSchema) (c : Nat) : List FieldSchema :=
  if h : c < fs.length then
    let f := fs.get ⟨c, h⟩
    if f.is_primary && f.auto_id then popAutoIdGo (fs.eraseIdx c) (c + 1)
    else popAutoIdGo fs (c + 1)
  else fs
termination_by fs.length - c
decreasing_by
  · simp [List.length_eraseIdx, h]; omega
  · omega

/-- Auto-id removal over a whole field list. -/
def popAutoId (fs : List FieldSchema) : List FieldSchema := popAutoIdGo fs 0

/-- The per-expected-field inference loop of the row/list path: `data[i]`
absent (IndexError), `None`, or empty falls back to the schema field's
dtype; otherwise the dtype is inferred from the first element.  Inferred
fields are unnamed. -/
def inferLoop {V : Type} (infer : V → DataType) (data : List (Option (List V))) :
    List FieldSchema → Nat → Except SchemaError (List FieldSchema)
  | [], _ => .ok []
  | f :: rest, i =>
    let fld : Except SchemaError FieldSchema :=
      match data[i]? with
      | none => FieldSchema.init "" f.dtype "" emptyFKw
      | some none => FieldSchema.init "" f.dtype "" emptyFKw
      | some (some l) =>
        match l.head? with
        | none => FieldSchema.init "" f.dtype "" emptyFKw
        | some elem => FieldSchema.init "" (infer elem) "" emptyFKw
    match fld with
    | .error e => .error e
    | .ok fd =>
      match inferLoop infer data rest (i + 1) with
      | .error e => .error e
      | .ok l => .ok (fd :: l)

/-- The excess-column loop of the row/list path: every payload column
beyond the expected fields contributes an unnamed field typed from its
first element (`data[index][0]`); a `None` or empty excess column makes
the source crash with an uncaught TypeError/IndexError. -/
def extraLoop {V : Type} (infer : V → DataType) (data : List (Option (List V)))
    (index : Nat) : Except SchemaError (List FieldSchema) :=
  if h : index < data.length then
    match data.get ⟨index, h⟩ with
    | none => .error .pyRuntimeError
    | some [] => .error .pyRuntimeError
    | some (e :: _) =>
      match FieldSchema.init "" (infer e) "" emptyFKw with
      | .error er => .error er
      | .ok f =>
        match extraLoop infer data (index + 1) with
        | .error er => .error er
        | .ok rest => .ok (f :: rest)
  else .ok []
termination_by data.length - index

/-- The row/list path of `parse_fields_from_data` (schema fields minus
auto-id primary, inferred fields per position, trailing extra columns;
`is_tabular = false`). -/
def parse_rows {V : Type} (infer : V → DataType) (schemaFields : List FieldSchema)
    (data : List (Option (List V))) :
    Except SchemaError (List FieldSchema × List FieldSchema × Bool) :=
  let tmp := popAutoId schemaFields
  match inferLoop infer data tmp 0 with
  | .error e => .error e
  | .ok infFields =>
    match extraLoop infer data tmp.length with
    | .error e => .error e
    | .ok extra => .ok (infFields ++ extra, tmp, false)

/-- The auto-id removal pass of the dataframe path: the source iterates
over the unmutated `schema.fields` while popping from the `tmp_fields`
copy at the iteration index.  (A `pop` at an out-of-range index would
raise IndexError in Python; that needs at least two auto-id primary
fields and is a no-op here.) -/
def popByEnum (fields : List FieldSchema) : List FieldSchema :=
  (fields.enum.foldl
    (fun tmp p => if p.2.is_primary && p.2.auto_id then tmp.eraseIdx p.1 else tmp)
    fields)

/-- The per-schema-field loop of the dataframe path: a schema field
absent from the columns is synthesized with its own declared dtype and
appended as a synthetic column; a present one takes the column's
resolved dtype (first matching label) and its captured type params. -/
def dfFieldLoop (pm : ParamsMap) :
    List FieldSchema → List String → List DataType →
    Except SchemaError (List FieldSchema × List String × List DataType)
  | [], cns, dts => .ok ([], cns, dts)
  | f :: rest, cns, dts =>
    if f.name ∈ cns then
      let tp := (List.lookup f.name pm).getD []
      let dt := (dts[cns.indexOf f.name]?).getD .UNKNOWN
      match FieldSchema.init f.name dt "" { emptyFKw with type_kwargs := tp } with
      | .error e => .error e
      | .ok fd =>
        match dfFieldLoop pm rest cns dts with
        | .error e => .error e
        | .ok (l, cns', dts') => .ok (fd :: l, cns', dts')
    else
      match FieldSchema.init f.name f.dtype "" emptyFKw with
      | .error e => .error e
      | .ok fd =>
        match dfFieldLoop pm rest (cns ++ [f.name]) (dts ++ [f.dtype]) with
        | .error e => .error e
        | .ok (l, cns', dts') => .ok (fd :: l, cns', dts')

/-- The trailing loop of the dataframe path: every column label not
already consumed by a schema field becomes an inferred field with its
resolved dtype and captured params. -/
def dfExtraLoop (pm : ParamsMap) (inferName : List String) :
    List (String × DataType) → Except SchemaError (List FieldSchema)
  | [] => .ok []
  | (n, dt) :: rest =>
    if n ∈ inferName then dfExtraLoop pm inferName rest
    else
      match FieldSchema.init n dt "" { emptyFKw with type_kwargs := (List.lookup n pm).getD [] } with
      | .error e => .error e
      | .ok f =>
        match dfExtraLoop pm inferName rest with
        | .error e => .error e
        | .ok l => .ok (f :: l)

/-- `parse_fields_from_dataframe` (`is_tabular = true`). -/
def parse_fields_from_dataframe {N V : Type} (mapNative : N → DataType)
    (infer : V → DataType) (vlen : V → Nat) (schemaFields : List FieldSchema)
    (df : List (Column N V)) :
    Except SchemaError (List FieldSchema × List FieldSchema × Bool) :=
  match prepare_fields_from_dataframe mapNative infer vlen df with
  | .error e => .error e
  | .ok (col_names, data_types, pm) =>
    let tmp := popByEnum schemaFields
    match dfFieldLoop pm tmp col_names data_types with
    | .error e => .error e
    | .ok (infFields, cns₂, dts₂) =>
      match dfExtraLoop pm (infFields.map (fun f => f.name)) (cns₂.zip dts₂) with
      | .error e => .error e
      | .ok extra => .ok (infFields ++ extra, tmp, true)

/-- An insert/upsert payload as received by `parse_fields_from_data`:
a DataFrame or a list of columns (each `None` or list-like). -/
inductive InsertInput (N V : Type) where
  | frame (df : List (Column N V))
  | rows (data : List (Option (List V)))
  deriving DecidableEq, Repr

/-- `parse_fields_from_data`: dispatch on the payload shape. -/
def parse_fields_from_data {N V : Type} (mapNative : N → DataType)
    (infer : V → DataType) (vlen : V → Nat) (schema : CollectionSchema) :
    InsertInput N V → Except SchemaError (List FieldSchema × List FieldSchema × Bool)
  | .frame df => parse_fields_from_dataframe mapNative infer vlen schema.fields df
  | .rows data => parse_rows infer schema.fields data

/-- The positional pass of `check_infer_fields_valid`: a dtype mismatch
always raises; a name mismatch raises only for tabular input. -/
def checkInferZip (is_data_frame : Bool) :
    List (FieldSchema × FieldSchema) → Except SchemaError Unit
  | [] => .ok ()
  | (x, y) :: rest =>
    if x.dtype ≠ y.dtype then .error (.dataNotMatchType y.name y.dtype x.dtype)
    else if is_data_frame ∧ x.name ≠ y.name then .error (.dataNotMatchName y.name x.name)
    else checkInferZip is_data_frame rest

/-- `check_infer_fields_valid`: count mismatch first (naming both field
lists), then the positional pass. -/
def check_infer_fields_valid (infer_fields tmp_fields : List FieldSchema)
    (is_data_frame : Bool) : Except SchemaError Unit :=
  if infer_fields.length ≠ tmp_fields.length then
    .error (.dataNotMatchCount (tmp_fields.map (fun f => f.name))
      (infer_fields.map (fun f => f.name)))
  else checkInferZip is_data_frame (infer_fields.zip tmp_fields)

/-- `check_insert_schema`: reject a missing schema; for an auto-id
schema fed a DataFrame containing the primary field's column, reject
any non-null value there and otherwise drop the column; then run
inference and reconciliation.  (`isnull` is the tabular library's
null test; reading `schema.auto_id` with no resolved primary field
raises AttributeError in the source.) -/
def check_insert_schema {N V : Type} (mapNative : N → DataType)
    (infer : V → DataType) (vlen : V → Nat) (isnull : V → Bool)
    (schema : Option CollectionSchema) (data : InsertInput N V) :
    Except SchemaError Unit :=
  match schema with
  | none => .error .schemaNotReady
  | some s =>
    match s.primary_field with
    | none => .error .pyAttributeError
    | some p =>
      let dataDropped : Except SchemaError (InsertInput N V) :=
        if p.auto_id then
          match data with
          | .frame df =>
            match df.find? (fun c => c.name = p.name) with
            | some col =>
              if ¬ col.vals.all isnull then .error (.dataNotMatchAutoId p.name)
              else .ok (.frame (df.filter (fun c => c.name ≠ p.name)))
            | none => .ok data
          | .rows d => .ok (.rows d)
        else .ok data
      match dataDropped with
      | .error e => .error e
      | .ok d₂ =>
        match parse_fields_from_data mapNative infer vlen s d₂ with
        | .error e => .error e
        | .ok (infF, tmpF, fl) => check_infer_fields_valid infF tmpF fl

/-! ## Claim theorems -/

/-- C7: the data-shape classifier rejects inputs that are not a tabular
table, a sequence or a mapping with `DataTypeNotSupported`; classifies
every tabular table as column-based and every plain mapping as
row-based; and classifies a sequence as row-based iff it is non-empty
with a mapping as first element (the empty sequence is column-based). -/
theorem C7_data_shape_classifier :
    check_is_row_based .other = .error .dataTypeNotSupport ∧
    check_is_row_based .frame = .ok false ∧
    check_is_row_based .mapping = .ok true ∧
    check_is_row_based (.seq []) = .ok false ∧
    (∀ es : List RowElem, check_is_row_based (.seq es) =
      .ok (match es with | .mapping :: _ => true | _ => false)) := by
  refine ⟨rfl, rfl, rfl, rfl, ?_⟩
  intro es
  match es with
  | [] => rfl
  | .mapping :: _ => rfl
  | .nonMapping :: _ => rfl

/-- C9: attribute access through the `__getattr__` fallback returns the
stored parameter value when the name is a key of the (hence non-empty)
`type_params` mapping, and Python `None` — never an `AttributeError` —
for any other name. -/
theorem C9_getattr_fallback :
    (∀ (f : FieldSchema) (item : String),
      List.lookup item f.type_params = none → f.getattr item = none) ∧
    (∀ (f : FieldSchema) (item : String) (v : PVal),
      List.lookup item f.type_params = some v → f.getattr item = some v) := by
  constructor
  · intro f item h
    simp [FieldSchema.getattr, h]
  · intro f item v h
    have hne : ¬ f.type_params.isEmpty := by
      cases hl : f.type_params with
      | nil => rw [hl] at h; simp [List.lookup] at h
      | cons a l => simp [hl]
    simp [FieldSchema.getattr, hne, h]

/-- Witness for C9 at a float-vector field with `dim = 4`. -/
theorem C9_getattr_fallback_witness :
    (FieldSchema.getattr ⟨"v", .FLOAT_VECTOR, "", [("dim", PVal.i 4)],
        false, false, false, false, none⟩ "foo" = none) ∧
    (FieldSchema.getattr ⟨"v", .FLOAT_VECTOR, "", [("dim", PVal.i 4)],
        false, false, false, false, none⟩ "dim" = some (PVal.i 4)) :=
  ⟨C9_getattr_fallback.1 _ "foo" (by decide),
   C9_getattr_fallback.2 _ "dim" (PVal.i 4) (by decide)⟩

/-- C8: constructing a field with the `auto_id=True` keyword while
`is_primary` is false or absent fails with `PrimaryKeyError` (for any
recognized, non-UNKNOWN dtype; an UNKNOWN dtype is rejected earlier with
`DataTypeNotSupported`). -/
theorem C8_auto_id_requires_primary (name : String) (dtype : DataType)
    (desc : String) (kw : FKwargs) (hdt : dtype ≠ .UNKNOWN)
    (ha : kw.auto_id = some true) (hp : kw.is_primary.getD false = false) :
    FieldSchema.init name dtype desc kw = .error .primaryKey := by
  unfold FieldSchema.init
  rw [if_neg hdt]
  simp [ha, hp]

/-- Witness for C8: an INT64 field with `auto_id=True`, `is_primary`
absent. -/
theorem C8_auto_id_requires_primary_witness :
    FieldSchema.init "x" .INT64 "" ⟨none, none, some true, none, .pynone, []⟩ =
      .error .primaryKey :=
  C8_auto_id_requires_primary "x" .INT64 "" _ (by decide) rfl rfl

/-- The positional pass accepts exactly when every aligned pair agrees
on dtype and, for tabular input, on name. -/
theorem checkInferZip_ok_iff (tab : Bool) (l : List (FieldSchema × FieldSchema)) :
    checkInferZip tab l = .ok () ↔
      ∀ p ∈ l, p.1.dtype = p.2.dtype ∧ (tab = true → p.1.name = p.2.name) := by
  induction l with
  | nil => simp [checkInferZip]
  | cons p rest ih =>
    obtain ⟨x, y⟩ := p
    by_cases hd : x.dtype = y.dtype
    · by_cases hn : tab = true ∧ x.name ≠ y.name
      · have hstep : checkInferZip tab ((x, y) :: rest) =
            .error (.dataNotMatchName y.name x.name) := by
          simp [checkInferZip, hd, hn]
        rw [hstep]
        constructor
        · intro h; exact absurd h (by simp)
        · intro h
          exact ((hn.2) ((h (x, y) (List.mem_cons_self _ _)).2 hn.1)).elim
      · have hstep : checkInferZip tab ((x, y) :: rest) = checkInferZip tab rest := by
          simp [checkInferZip, hd, hn]
        rw [hstep, ih]
        constructor
        · intro h p hp
          rcases List.mem_cons.mp hp with hpq | hpr
          · subst hpq
            refine ⟨hd, fun ht => ?_⟩
            by_contra hne
            exact hn ⟨ht, hne⟩
          · exact h p hpr
        · intro h p hp
          exact h p (List.mem_cons_of_mem _ hp)
    · have hstep : checkInferZip tab ((x, y) :: rest) =
          .error (.dataNotMatchType y.name y.dtype x.dtype) := by
        simp [checkInferZip, hd]
      rw [hstep]
      constructor
      · intro h; exact absurd h (by simp)
      · intro h
        exact (hd ((h (x, y) (List.mem_cons_self _ _)).1)).elim

/-- Any failure of the positional pass is a `DataNotMatch` error. -/
theorem checkInferZip_error_isDataNotMatch (tab : Bool)
    (l : List (FieldSchema × FieldSchema)) (e : SchemaError)
    (h : checkInferZip tab l = .error e) : e.isDataNotMatch = true := by
  induction l generalizing e with
  | nil => simp [checkInferZip] at h
  | cons p rest ih =>
    obtain ⟨x, y⟩ := p
    by_cases hd : x.dtype = y.dtype
    · by_cases hn : tab = true ∧ x.name ≠ y.name
      · have hstep : checkInferZip tab ((x, y) :: rest) =
            .error (.dataNotMatchName y.name x.name) := by
          simp [checkInferZip, hd, hn]
        rw [hstep] at h
        simp only [Except.error.injEq] at h
        subst h; rfl
      · have hstep : checkInferZip tab ((x, y) :: rest) = checkInferZip tab rest := by
          simp [checkInferZip, hd, hn]
        rw [hstep] at h
        exact ih e h
    · have hstep : checkInferZip tab ((x, y) :: rest) =
          .error (.dataNotMatchType y.name y.dtype x.dtype) := by
        simp [checkInferZip, hd]
      rw [hstep] at h
      simp only [Except.error.injEq] at h
      subst h; rfl

/-- C6: reconciliation raises `DataNotMatch` naming both field-name
lists when the lengths differ; every failure it raises is a
`DataNotMatch`; and it accepts exactly when the lengths agree and every
aligned pair agrees on dtype and — only for tabular input — on name
(so for row/list input names are never consulted). -/
theorem C6_reconciliation_check :
    (∀ (inf tmp : List FieldSchema) (tab : Bool), inf.length ≠ tmp.length →
      check_infer_fields_valid inf tmp tab =
        .error (.dataNotMatchCount (tmp.map (fun f => f.name))
          (inf.map (fun f => f.name)))) ∧
    (∀ (inf tmp : List FieldSchema) (tab : Bool) (e : SchemaError),
      check_infer_fields_valid inf tmp tab = .error e → e.isDataNotMatch = true) ∧
    (∀ (inf tmp : List FieldSchema) (tab : Bool),
      check_infer_fields_valid inf tmp tab = .ok () ↔
        (inf.length = tmp.length ∧ ∀ p ∈ inf.zip tmp,
          p.1.dtype = p.2.dtype ∧ (tab = true → p.1.name = p.2.name))) := by
  refine ⟨?_, ?_, ?_⟩
  · intro inf tmp tab hlen
    simp [check_infer_fields_valid, hlen]
  · intro inf tmp tab e h
    by_cases hlen : inf.length = tmp.length
    · rw [check_infer_fields_valid, if_neg (by simpa using hlen)] at h
      exact checkInferZip_error_isDataNotMatch tab _ e h
    · rw [check_infer_fields_valid, if_pos hlen] at h
      simp only [Except.error.injEq] at h
      subst h; rfl
  · intro inf tmp tab
    by_cases hlen : inf.length = tmp.length
    · rw [check_infer_fields_valid, if_neg (by simpa using hlen)]
      rw [checkInferZip_ok_iff]
      simp [hlen]
    · rw [check_infer_fields_valid, if_pos hlen]
      simp [hlen]

/-- Witness for C6: a one-vs-zero count mismatch produces the
count-mismatch error naming both lists, and an aligned pair with equal
dtypes is accepted for row input even with differing names. -/
theorem C6_reconciliation_check_witness :
    (check_infer_fields_valid
        [⟨"x", .INT64, "", [], false, false, false, false, none⟩] [] false =
      .error (.dataNotMatchCount [] ["x"])) ∧
    (check_infer_fields_valid
        [⟨"x", .INT64, "", [], false, false, false, false, none⟩]
        [⟨"y", .INT64, "", [], false, false, false, false, none⟩] false =
      .ok ()) :=
  ⟨C6_reconciliation_check.1 _ [] false (by decide),
   (C6_reconciliation_check.2.2 _ _ false).mpr (by decide)⟩

/-- C1 (code evaluation): the source's `validate_partition_key`
constructs `PartitionKeyException` without raising it when the
partition-key field coincides with the primary field, so constructing a
collection whose single INT64 field is both primary and partition key
SUCCEEDS (with both derived pointers set to that field), where the spec
and the source's own comment require a `PartitionKeyError`. -/
theorem checkLoop_append (l₁ l₂ : List FieldSchema) (i : Nat) (st : ChkSt) :
    checkLoop (l₁ ++ l₂) i st =
      match checkLoop l₁ i st with
      | .error e => .error e
      | .ok (l₁', st₁) =>
        match checkLoop l₂ (i + l₁.length) st₁ with
        | .error e => .error e
        | .ok (l₂', st₂) => .ok (l₁' ++ l₂', st₂) := by
  induction l₁ generalizing i st with
  | nil =>
    simp only [List.nil_append, checkLoop, List.length_nil, Nat.add_zero]
    cases checkLoop l₂ i st with
    | error e => rfl
    | ok p => rfl
  | cons f rest ih =>
    simp only [List.cons_append, checkLoop]
    cases hE : checkStep f i st with
    | error e => rfl
    | ok p =>
      obtain ⟨f', st₂⟩ := p
      dsimp only
      simp only [List.append_eq]
      rw [ih (i + 1) st₂]
      cases hr : checkLoop rest (i + 1) st₂ with
      | error e => rfl
      | ok q =>
        obtain ⟨r', s₁⟩ := q
        dsimp only
        have hlen : i + 1 + rest.length = i + (f :: rest).length := by
          simp only [List.length_cons]; omega
        rw [hlen]
        cases h₂ : checkLoop l₂ (i + (f :: rest).length) s₁ with
        | error e => rfl
        | ok w => rfl

/-- A field with no primary/partition-key flags, whose name the pending
primary hint does not match, passes through one loop iteration
unchanged (given no pending partition-key hint). -/
theorem checkStep_inert (f : FieldSchema) (i : Nat) (st : ChkSt)
    (hp : f.is_primary = false) (hk : f.is_partition_key = false)
    (hn : st.pfName ≠ some f.name) (hpk : st.pkName = none) :
    checkStep f i st = .ok (f, st) := by
  simp [checkStep, mutP, mutK, primBlock, pkBlock, hn, hpk, hp, hk]

/-- A field list with no primary/partition-key flags, whose names the
pending primary hint does not match, passes through the
`_check_fields` loop unchanged (given no pending partition-key hint). -/
theorem checkLoop_inert (fs : List FieldSchema) (i : Nat) (st : ChkSt)
    (hf : ∀ f ∈ fs, f.is_primary = false ∧ f.is_partition_key = false ∧
      st.pfName ≠ some f.name)
    (hpk : st.pkName = none) :
    checkLoop fs i st = .ok (fs, st) := by
  induction fs generalizing i with
  | nil => rfl
  | cons f rest ih =>
    obtain ⟨hp, hk, hn⟩ := hf f (List.mem_cons_self _ _)
    simp only [checkLoop, checkStep_inert f i st hp hk hn hpk]
    rw [ih (i + 1) (fun g hg => hf g (List.mem_cons_of_mem _ hg))]

/-- A primary-flagged (non-partition-key) field encountered with no
pending primary name records itself as the primary field. -/
theorem checkStep_primary_fresh (f : FieldSchema) (i : Nat) (st : ChkSt)
    (hp : f.is_primary = true) (hk : f.is_partition_key = false)
    (hpf : st.pfName = none) (hpk : st.pkName = none) :
    checkStep f i st = .ok (f, { st with pfName := some f.name, pIdx := some i }) := by
  simp [checkStep, mutP, mutK, primBlock, pkBlock, hp, hk, hpf, hpk]

/-- Once a primary name `n` is recorded, a later primary-flagged field
with a different name makes the loop fail with `PrimaryKeyError`
(partition-key flags absent). -/
theorem checkLoop_conflict (l : List FieldSchema) (i : Nat) (st : ChkSt) (n : String)
    (hpf : st.pfName = some n) (hpk : st.pkName = none)
    (hnk : ∀ f ∈ l, f.is_partition_key = false)
    (hex : ∃ g ∈ l, g.is_primary = true ∧ g.name ≠ n) :
    checkLoop l i st = .error .primaryKey := by
  induction l generalizing i st with
  | nil => simp at hex
  | cons h rest ih =>
    have hkh : h.is_partition_key = false := hnk h (List.mem_cons_self _ _)
    by_cases hname : h.name = n
    · have hstep : checkStep h i st =
          .ok ({ h with is_primary := true },
               { st with pfName := some h.name, pIdx := some i }) := by
        simp [checkStep, mutP, mutK, primBlock, pkBlock, hpf, hname, hpk, hkh]
      obtain ⟨g, hg, hgp, hgn⟩ := hex
      have hgrest : g ∈ rest := by
        rcases List.mem_cons.mp hg with hgh | hgr
        · exact absurd (hgh ▸ hname) hgn
        · exact hgr
      simp only [checkLoop, hstep]
      rw [ih (i + 1) _ (by simp [hname, hpf]) (by simp [hpk])
        (fun f hf => hnk f (List.mem_cons_of_mem _ hf)) ⟨g, hgrest, hgp, hgn⟩]
    · by_cases hprim : h.is_primary = true
      · have hstep : checkStep h i st = .error .primaryKey := by
          have hne' : ¬ n = h.name := fun hc => hname hc.symm
          simp [checkStep, mutP, mutK, primBlock, pkBlock, hpk, hprim, hpf, hne']
        simp only [checkLoop, hstep]
      · have hp : h.is_primary = false := by
          cases hb : h.is_primary with
          | true => exact absurd hb hprim
          | false => rfl
        have hne : st.pfName ≠ some h.name := by
          rw [hpf]; exact fun hc => hname (Option.some.inj hc).symm
        simp only [checkLoop, checkStep_inert h i st hp hkh hne hpk]
        obtain ⟨g, hg, hgp, hgn⟩ := hex
        have hgrest : g ∈ rest := by
          rcases List.mem_cons.mp hg with hgh | hgr
          · rw [hgh] at hgp; rw [hp] at hgp; exact absurd hgp (by simp)
          · exact hgr
        rw [ih (i + 1) st hpf hpk
          (fun f hf => hnk f (List.mem_cons_of_mem _ hf)) ⟨g, hgrest, hgp, hgn⟩]

/-- The element just past a prefix of an append. -/
theorem getElem?_append_cons (l₁ l₂ : List FieldSchema) (p : FieldSchema) :
    (l₁ ++ p :: l₂)[l₁.length]? = some p := by
  induction l₁ with
  | nil => simp
  | cons f rest ih => simpa using ih

/-- C3: with field checking enabled and a benign partition-key
configuration (no partition-key flags or hint, so no partition-key
error preempts), construction fails with `PrimaryKeyError` when no
field is flagged primary and the primary hint matches no field; fails
with `PrimaryKeyError` when a primary-flagged field is followed by a
primary-flagged field of a different name; and succeeds when exactly
one field is flagged primary with dtype INT64/VARCHAR (no later field
reusing its name), with the `primary_field` accessor returning that
field. -/
theorem C3_primary_key_rules :
    (∀ (fields : List FieldSchema) (desc : String) (kw : CKwargs),
      (∀ f ∈ fields, f.is_primary = false ∧ f.is_partition_key = false) →
      (∀ f ∈ fields, kw.primary_field ≠ some f.name) →
      kw.partition_key_field = none → kw.check_fields.getD true = true →
      CollectionSchema.init fields desc kw = .error .primaryKey) ∧
    (∀ (l₁ l₂ : List FieldSchema) (p : FieldSchema) (desc : String) (kw : CKwargs),
      (∀ f ∈ l₁, f.is_primary = false) →
      (∀ f ∈ l₁ ++ p :: l₂, f.is_partition_key = false) →
      p.is_primary = true →
      (∃ g ∈ l₂, g.is_primary = true ∧ g.name ≠ p.name) →
      kw.primary_field = none → kw.partition_key_field = none →
      kw.check_fields.getD true = true →
      CollectionSchema.init (l₁ ++ p :: l₂) desc kw = .error .primaryKey) ∧
    (∀ (l₁ l₂ : List FieldSchema) (p : FieldSchema) (desc : String) (kw : CKwargs),
      (∀ f ∈ l₁ ++ l₂, f.is_primary = false) →
      (∀ f ∈ l₁ ++ p :: l₂, f.is_partition_key = false) →
      p.is_primary = true → (p.dtype = .INT64 ∨ p.dtype = .VARCHAR) →
      (∀ f ∈ l₂, f.name ≠ p.name) →
      kw.primary_field = none → kw.partition_key_field = none →
      kw.auto_id.getD false = false → kw.check_fields.getD true = true →
      CollectionSchema.init (l₁ ++ p :: l₂) desc kw =
        .ok ⟨l₁ ++ p :: l₂, desc, kw.enable_dynamic_field.getD false, some p, none⟩) := by
  refine ⟨?_, ?_, ?_⟩
  · intro fields desc kw hflag hhint hpkf hcf
    have hloop : checkLoop fields 0 ⟨kw.primary_field, kw.partition_key_field, none, none⟩ =
        .ok (fields, ⟨kw.primary_field, kw.partition_key_field, none, none⟩) := by
      apply checkLoop_inert
      · intro f hf
        exact ⟨(hflag f hf).1, (hflag f hf).2, hhint f hf⟩
      · simpa using hpkf
    unfold CollectionSchema.init
    rw [if_pos hcf]
    unfold checkFieldsFull
    rw [hloop]
    rfl
  · intro l₁ l₂ p desc kw h1 hk hp hex hpf hpkf hcf
    have hl₁ : checkLoop l₁ 0 ⟨none, none, none, none⟩ =
        .ok (l₁, ⟨none, none, none, none⟩) :=
      checkLoop_inert _ _ _
        (fun f hf => ⟨h1 f hf, hk f (List.mem_append_left _ hf), by simp⟩) rfl
    have hstep := checkStep_primary_fresh p l₁.length ⟨none, none, none, none⟩ hp
      (hk p (List.mem_append_right _ (List.mem_cons_self _ _))) rfl rfl
    have hl₂ := checkLoop_conflict l₂ (l₁.length + 1)
      ⟨some p.name, none, some l₁.length, none⟩ p.name rfl rfl
      (fun f hf => hk f (List.mem_append_right _ (List.mem_cons_of_mem _ hf))) hex
    have hloop : checkLoop (l₁ ++ p :: l₂) 0 ⟨none, none, none, none⟩ =
        .error .primaryKey := by
      rw [checkLoop_append, hl₁]
      dsimp only
      simp only [Nat.zero_add, checkLoop, hstep]
      rw [hl₂]
    unfold CollectionSchema.init
    rw [if_pos hcf]
    unfold checkFieldsFull
    rw [hpf, hpkf, hloop]
  · intro l₁ l₂ p desc kw h1 hk hp hdt hnames hpf hpkf hauto hcf
    have hl₁ : checkLoop l₁ 0 ⟨none, none, none, none⟩ =
        .ok (l₁, ⟨none, none, none, none⟩) :=
      checkLoop_inert _ _ _
        (fun f hf => ⟨h1 f (List.mem_append_left _ hf),
          hk f (List.mem_append_left _ hf), by simp⟩) rfl
    have hstep := checkStep_primary_fresh p l₁.length ⟨none, none, none, none⟩ hp
      (hk p (List.mem_append_right _ (List.mem_cons_self _ _))) rfl rfl
    have hl₂ : checkLoop l₂ (l₁.length + 1)
        ⟨some p.name, none, some l₁.length, none⟩ =
        .ok (l₂, ⟨some p.name, none, some l₁.length, none⟩) :=
      checkLoop_inert _ _ _
        (fun f hf => ⟨h1 f (List.mem_append_right _ hf),
          hk f (List.mem_append_right _ (List.mem_cons_of_mem _ hf)),
          by simpa using fun hc => hnames f hf hc.symm⟩) rfl
    have hloop : checkLoop (l₁ ++ p :: l₂) 0 ⟨none, none, none, none⟩ =
        .ok (l₁ ++ p :: l₂, ⟨some p.name, none, some l₁.length, none⟩) := by
      rw [checkLoop_append, hl₁]
      dsimp only
      simp only [Nat.zero_add, checkLoop, hstep]
      rw [hl₂]
    have hget : (l₁ ++ p :: l₂)[l₁.length]? = some p := getElem?_append_cons l₁ l₂ p
    unfold CollectionSchema.init
    rw [if_pos hcf]
    unfold checkFieldsFull
    rw [hpf, hpkf, hloop]
    dsimp only [Option.bind]
    rw [hget]
    dsimp only [validate_primary_key]
    rw [if_pos hdt]
    dsimp only [validate_partition_key, Option.bind]
    rw [hauto]
    simp only [Bool.false_eq_true, if_false]
    rw [hget]

/-- Witness for C3: no primary flag → `PrimaryKeyError`; two primary
flags with different names → `PrimaryKeyError`; a single INT64 primary
field → success with `primary_field` returning it. -/
theorem C3_primary_key_rules_witness :
    CollectionSchema.init [⟨"a", .INT64, "", [], false, false, false, false, none⟩]
        "" emptyCKw = .error .primaryKey ∧
    CollectionSchema.init [⟨"a", .INT64, "", [], true, false, false, false, none⟩,
        ⟨"b", .INT64, "", [], true, false, false, false, none⟩] "" emptyCKw =
      .error .primaryKey ∧
    CollectionSchema.init [⟨"a", .INT64, "", [], true, false, false, false, none⟩]
        "" emptyCKw =
      .ok ⟨[⟨"a", .INT64, "", [], true, false, false, false, none⟩], "", false,
           some ⟨"a", .INT64, "", [], true, false, false, false, none⟩, none⟩ :=
  ⟨C3_primary_key_rules.1 _ "" emptyCKw (by decide) (by decide) rfl rfl,
   C3_primary_key_rules.2.1 [] [⟨"b", .INT64, "", [], true, false, false, false, none⟩]
     ⟨"a", .INT64, "", [], true, false, false, false, none⟩ "" emptyCKw
     (by decide) (by decide) rfl (by decide) rfl rfl rfl,
   C3_primary_key_rules.2.2 [] [] ⟨"a", .INT64, "", [], true, false, false, false, none⟩
     "" emptyCKw (by decide) (by decide) rfl (by decide) (by decide) rfl rfl rfl rfl⟩

/-- Structural companion of `popAutoIdGo`: one left-to-right pass that
removes an auto-id primary field; the Boolean records Python's
pop-during-iteration artifact that the element sliding into a removed
slot is kept without being examined. -/
def popPassB : Bool → List FieldSchema → List FieldSchema
  | _, [] => []
  | true, g :: rest => g :: popPassB false rest
  | false, f :: rest =>
    if f.is_primary && f.auto_id then popPassB true rest
    else f :: popPassB false rest

/-- Erasing just past a prefix of an append. -/
theorem eraseIdx_append_cons (l₁ l₂ : List FieldSchema) (p : FieldSchema) :
    (l₁ ++ p :: l₂).eraseIdx l₁.length = l₁ ++ l₂ := by
  induction l₁ with
  | nil => rfl
  | cons f rest ih => simpa [List.eraseIdx] using ih

/-- The cursor-based removal loop started at the end of a prefix agrees
with the structural pass on the suffix. -/
theorem popAutoIdGo_append (l₁ l₂ : List FieldSchema) :
    popAutoIdGo (l₁ ++ l₂) l₁.length = l₁ ++ popPassB false l₂ := by
  match l₂ with
  | [] =>
    rw [popAutoIdGo, dif_neg (by simp)]
    simp [popPassB]
  | f :: rest =>
    have hlt : l₁.length < (l₁ ++ f :: rest).length := by simp
    have hget : (l₁ ++ f :: rest).get ⟨l₁.length, hlt⟩ = f := by
      have h1 := getElem?_append_cons l₁ rest f
      rw [List.getElem?_eq_getElem hlt] at h1
      simpa using h1
    rw [popAutoIdGo, dif_pos hlt, hget]
    by_cases hP : (f.is_primary && f.auto_id) = true
    · rw [if_pos hP, eraseIdx_append_cons]
      simp only [popPassB, hP, if_true]
      match rest with
      | [] =>
        rw [popAutoIdGo, dif_neg (by simp)]
        simp [popPassB]
      | g :: rest' =>
        have h2 : popAutoIdGo (l₁ ++ g :: rest') (l₁.length + 1) =
            popAutoIdGo ((l₁ ++ [g]) ++ rest') (l₁ ++ [g]).length := by
          simp
        rw [h2, popAutoIdGo_append (l₁ ++ [g]) rest']
        simp [popPassB]
    · rw [if_neg hP]
      have hPf : (f.is_primary && f.auto_id) = false := by
        revert hP; cases (f.is_primary && f.auto_id) <;> simp
      have h2 : popAutoIdGo (l₁ ++ f :: rest) (l₁.length + 1) =
          popAutoIdGo ((l₁ ++ [f]) ++ rest) (l₁ ++ [f]).length := by
        simp
      rw [h2, popAutoIdGo_append (l₁ ++ [f]) rest]
      simp only [popPassB, hPf, Bool.false_eq_true, if_false]
      simp
termination_by l₂.length

/-- The auto-id removal of the row/list path is the structural pass. -/
theorem popAutoId_eq_popPassB (fs : List FieldSchema) :
    popAutoId fs = popPassB false fs := by
  simpa using popAutoIdGo_append [] fs

/-- On a list with no auto-id primary field the pass is the identity,
whichever skip state it starts in. -/
theorem popPassB_skip_id (l : List FieldSchema)
    (hall : ∀ g ∈ l, (g.is_primary && g.auto_id) = false) :
    ∀ b, popPassB b l = l := by
  induction l with
  | nil => intro b; cases b <;> rfl
  | cons f rest ih =>
    intro b
    have hf := hall f (List.mem_cons_self _ _)
    have ih' := ih (fun g hg => hall g (List.mem_cons_of_mem _ hg))
    cases b with
    | true =>
      simp only [popPassB]
      rw [ih' false]
    | false =>
      simp only [popPassB, hf, Bool.false_eq_true, if_false]
      rw [ih' false]

/-- With at most one auto-id primary field, the pass is a plain filter. -/
theorem popPassB_eq_filter (fs : List FieldSchema)
    (h : fs.countP (fun f => f.is_primary && f.auto_id) ≤ 1) :
    popPassB false fs = fs.filter (fun f => !(f.is_primary && f.auto_id)) := by
  induction fs with
  | nil => rfl
  | cons f rest ih =>
    by_cases hP : (f.is_primary && f.auto_id) = true
    · have hcnt : rest.countP (fun f => f.is_primary && f.auto_id) = 0 := by
        rw [List.countP_cons, hP] at h
        rw [if_pos rfl] at h
        omega
      have hall : ∀ g ∈ rest, (g.is_primary && g.auto_id) = false := by
        intro g hg
        simpa using List.countP_eq_zero.mp hcnt g hg
      simp only [popPassB, hP, if_true]
      rw [popPassB_skip_id rest hall true]
      rw [List.filter_cons_of_neg (by simp [hP])]
      symm
      rw [List.filter_eq_self]
      intro g hg
      simp [hall g hg]
    · have hPf : (f.is_primary && f.auto_id) = false := by
        revert hP; cases (f.is_primary && f.auto_id) <;> simp
      have hrest : rest.countP (fun f => f.is_primary && f.auto_id) ≤ 1 := by
        rw [List.countP_cons] at h
        omega
      simp only [popPassB, hPf, Bool.false_eq_true, if_false]
      rw [ih hrest, List.filter_cons_of_pos (by simp [hPf])]

/-- No type parameters are extracted from an empty kwargs bag. -/
theorem parseTypeParams_nil (dt : DataType) : parseTypeParams dt [] = [] := by
  unfold parseTypeParams
  split <;> rfl

/-- Constructing a bare field (no keywords) with a known dtype. -/
theorem init_bare (name : String) (dt : DataType) (h : dt ≠ .UNKNOWN) :
    FieldSchema.init name dt "" emptyFKw =
      .ok ⟨name, dt, "", [], false, false, false, false, none⟩ := by
  unfold FieldSchema.init
  rw [if_neg h]
  simp [emptyFKw, resolveDefault, infer_default_value_bydata, parseTypeParams_nil]

/-- The dtype the row/list path infers for one expected field: the
schema fallback when the column is absent, `None` or empty, otherwise
the type of the column's first element. -/
def rowInferDtype {V : Type} (infer : V → DataType)
    (d : Option (Option (List V))) (fallback : DataType) : DataType :=
  match d with
  | none => fallback
  | some none => fallback
  | some (some []) => fallback
  | some (some (e :: _)) => infer e

/-- The unnamed fields the per-expected-field loop produces, one per
schema field, in order. -/
def rowInferList {V : Type} (infer : V → DataType) (data : List (Option (List V))) :
    List FieldSchema → Nat → List FieldSchema
  | [], _ => []
  | f :: rest, i =>
    ⟨"", rowInferDtype infer data[i]? f.dtype, "", [], false, false, false, false, none⟩ ::
      rowInferList infer data rest (i + 1)

theorem rowInferList_length {V : Type} (infer : V → DataType)
    (data : List (Option (List V))) (tmp : List FieldSchema) (i : Nat) :
    (rowInferList infer data tmp i).length = tmp.length := by
  induction tmp generalizing i with
  | nil => rfl
  | cons f rest ih => simp [rowInferList, ih]

theorem rowInferList_getElem {V : Type} (infer : V → DataType)
    (data : List (Option (List V))) (tmp : List FieldSchema) (i j : Nat)
    (f : FieldSchema) (hj : tmp[j]? = some f) :
    (rowInferList infer data tmp i)[j]? =
      some ⟨"", rowInferDtype infer data[i + j]? f.dtype, "", [],
            false, false, false, false, none⟩ := by
  induction tmp generalizing i j with
  | nil => simp at hj
  | cons g rest ih =>
    cases j with
    | zero =>
      simp only [List.getElem?_cons_zero, Option.some.injEq] at hj
      subst hj
      simp [rowInferList]
    | succ j' =>
      simp only [List.getElem?_cons_succ] at hj
      have := ih (i + 1) j' hj
      simpa [rowInferList, Nat.add_assoc, Nat.add_comm 1 j'] using this

/-- The per-expected-field loop succeeds and produces exactly the
unnamed fields of `rowInferList` when all involved dtypes are known. -/
theorem inferLoop_spec {V : Type} (infer : V → DataType)
    (data : List (Option (List V))) (tmp : List FieldSchema) (i : Nat)
    (htmp : ∀ f ∈ tmp, f.dtype ≠ .UNKNOWN) (hinf : ∀ v, infer v ≠ .UNKNOWN) :
    inferLoop infer data tmp i = .ok (rowInferList infer data tmp i) := by
  induction tmp generalizing i with
  | nil => rfl
  | cons f rest ih =>
    have hrec := ih (i + 1) (fun g hg => htmp g (List.mem_cons_of_mem _ hg))
    have hfd := htmp f (List.mem_cons_self _ _)
    simp only [inferLoop, rowInferList]
    rcases hD : data[i]? with _ | dOpt
    · rw [init_bare _ _ hfd, hrec]
      simp [rowInferDtype, hD]
    · rcases dOpt with _ | l
      · rw [init_bare _ _ hfd, hrec]
        simp [rowInferDtype, hD]
      · rcases l with _ | ⟨e, t⟩
        · rw [init_bare _ _ hfd, hrec]
          simp [rowInferDtype, hD]
        · dsimp only [List.head?]
          rw [init_bare _ _ (hinf e), hrec]
          simp [rowInferDtype, hD]

/-- The excess-column loop succeeds on well-formed excess columns and
types each from its first element. -/
theorem extraLoop_spec {V : Type} (infer : V → DataType)
    (data : List (Option (List V))) (idx : Nat)
    (hinf : ∀ v, infer v ≠ .UNKNOWN)
    (hgood : ∀ j, idx ≤ j → j < data.length → ∃ e t, data[j]? = some (some (e :: t))) :
    ∃ l, extraLoop infer data idx = .ok l ∧ l.length = data.length - idx ∧
      (∀ j e t, idx ≤ j → data[j]? = some (some (e :: t)) →
        l[j - idx]? = some ⟨"", infer e, "", [], false, false, false, false, none⟩) := by
  by_cases h : idx < data.length
  · obtain ⟨e, t, hD⟩ := hgood idx le_rfl h
    have hget : data.get ⟨idx, h⟩ = some (e :: t) := by
      have h1 := List.getElem?_eq_getElem h
      rw [hD] at h1
      exact (Option.some.inj h1).symm
    obtain ⟨l', hl', hlen', hspec'⟩ := extraLoop_spec infer data (idx + 1) hinf
      (fun j hj hjl => hgood j (Nat.le_of_succ_le hj) hjl)
    refine ⟨⟨"", infer e, "", [], false, false, false, false, none⟩ :: l', ?_, ?_, ?_⟩
    · rw [extraLoop, dif_pos h, hget]
      dsimp only
      rw [init_bare _ _ (hinf e), hl']
    · simp only [List.length_cons, hlen']
      omega
    · intro j e' t' hij hD'
      by_cases hje : j = idx
      · subst hje
        rw [hD] at hD'
        have : e = e' := by
          have h2 := Option.some.inj hD'
          have h3 := Option.some.inj h2
          exact (List.cons.inj h3).1
        subst this
        simp
      · have hgt : idx + 1 ≤ j := by omega
        have h4 := hspec' j e' t' hgt hD'
        have h5 : j - idx = (j - (idx + 1)) + 1 := by omega
        rw [h5]
        simpa using h4
  · refine ⟨[], ?_, ?_, ?_⟩
    · rw [extraLoop, dif_neg h]
    · simp only [List.length_nil]
      omega
    · intro j e t hij hD
      have : j < data.length := by
        by_contra hc
        rw [List.getElem?_eq_none (by omega)] at hD
        exact Option.noConfusion hD
      omega
termination_by data.length - idx

/-- C4 (amended): for a schema with AT MOST ONE auto-id primary field
(all known dtypes, total inference, well-formed excess columns), the
row/list path returns `expected_fields` equal to the schema's fields in
order with any auto-id primary field removed; per position the inferred
dtype is the schema fallback when the column is absent/None/empty and
the first element's inferred type otherwise; excess payload columns are
appended with types inferred from their first elements; and the
returned flag is false.  (The unamended claim fails for two ADJACENT
auto-id primary fields, where the source's pop-during-iteration keeps
the second one: see the counterexample.) -/
theorem C4_row_inference_amended (N V : Type) (mapNative : N → DataType)
    (infer : V → DataType) (vlen : V → Nat) (s : CollectionSchema)
    (data : List (Option (List V)))
    (hcount : s.fields.countP (fun f => f.is_primary && f.auto_id) ≤ 1)
    (hdts : ∀ f ∈ s.fields, f.dtype ≠ .UNKNOWN)
    (hinf : ∀ v, infer v ≠ .UNKNOWN)
    (hextra : ∀ j, (s.fields.filter (fun f => !(f.is_primary && f.auto_id))).length ≤ j →
      j < data.length → ∃ e t, data[j]? = some (some (e :: t))) :
    ∃ inf : List FieldSchema,
      parse_fields_from_data mapNative infer vlen s (.rows data) =
        .ok (inf, s.fields.filter (fun f => !(f.is_primary && f.auto_id)), false) ∧
      inf.length =
        max (s.fields.filter (fun f => !(f.is_primary && f.auto_id))).length data.length ∧
      (∀ (j : Nat) (f : FieldSchema),
        (s.fields.filter (fun f => !(f.is_primary && f.auto_id)))[j]? = some f →
        inf[j]? = some ⟨"", rowInferDtype infer data[j]? f.dtype, "", [],
          false, false, false, false, none⟩) ∧
      (∀ (j : Nat) (e : V) (t : List V),
        (s.fields.filter (fun f => !(f.is_primary && f.auto_id))).length ≤ j →
        data[j]? = some (some (e :: t)) →
        inf[j]? = some ⟨"", infer e, "", [], false, false, false, false, none⟩) := by
  have hpop : popAutoId s.fields =
      s.fields.filter (fun f => !(f.is_primary && f.auto_id)) := by
    rw [popAutoId_eq_popPassB, popPassB_eq_filter _ hcount]
  have htmpdts : ∀ f ∈ s.fields.filter (fun f => !(f.is_primary && f.auto_id)),
      f.dtype ≠ .UNKNOWN := fun f hf => hdts f (List.mem_of_mem_filter hf)
  have hil := inferLoop_spec infer data
    (s.fields.filter (fun f => !(f.is_primary && f.auto_id))) 0 htmpdts hinf
  obtain ⟨ext, hext, hextlen, hextspec⟩ := extraLoop_spec infer data
    (s.fields.filter (fun f => !(f.is_primary && f.auto_id))).length hinf hextra
  refine ⟨rowInferList infer data
      (s.fields.filter (fun f => !(f.is_primary && f.auto_id))) 0 ++ ext, ?_, ?_, ?_, ?_⟩
  · show parse_rows infer s.fields data = _
    unfold parse_rows
    rw [hpop]
    dsimp only
    rw [hil, hext]
  · rw [List.length_append, rowInferList_length, hextlen]
    omega
  · intro j f hj
    have hjlen : j < (s.fields.filter (fun f => !(f.is_primary && f.auto_id))).length := by
      by_contra hc
      rw [List.getElem?_eq_none (by omega)] at hj
      exact Option.noConfusion hj
    rw [List.getElem?_append, if_pos (by rw [rowInferList_length]; exact hjlen)]
    rw [rowInferList_getElem infer data _ 0 j f hj]
    simp
  · intro j e t hj hD
    rw [List.getElem?_append,
      if_neg (by rw [rowInferList_length]; omega)]
    rw [rowInferList_length]
    exact hextspec j e t hj hD

/-- Witness for the amended C4 at a single-field schema and empty
payload. -/
theorem C4_row_inference_amended_witness :
    ∃ inf : List FieldSchema,
      parse_fields_from_data (fun _ : Unit => DataType.UNKNOWN)
          (fun _ : Unit => DataType.INT64) (fun _ => 0)
          ⟨[⟨"x", .INT64, "", [], false, false, false, false, none⟩], "", false,
           none, none⟩ (.rows ([] : List (Option (List Unit)))) =
        .ok (inf,
          [⟨"x", .INT64, "", [], false, false, false, false, none⟩].filter
            (fun f => !(f.is_primary && f.auto_id)), false) ∧
      inf.length =
        max ([(⟨"x", .INT64, "", [], false, false, false, false, none⟩ :
          FieldSchema)].filter
          (fun f => !(f.is_primary && f.auto_id))).length
          ([] : List (Option (List Unit))).length ∧
      (∀ (j : Nat) (f : FieldSchema),
        ([(⟨"x", .INT64, "", [], false, false, false, false, none⟩ :
          FieldSchema)].filter (fun f => !(f.is_primary && f.auto_id)))[j]? = some f →
        inf[j]? = some ⟨"", rowInferDtype (fun _ : Unit => DataType.INT64) ([] :
          List (Option (List Unit)))[j]? f.dtype, "", [],
          false, false, false, false, none⟩) ∧
      (∀ (j : Nat) (e : Unit) (t : List Unit),
        ([(⟨"x", .INT64, "", [], false, false, false, false, none⟩ :
          FieldSchema)].filter (fun f => !(f.is_primary && f.auto_id))).length ≤ j →
        ([] : List (Option (List Unit)))[j]? = some (some (e :: t)) →
        inf[j]? = some ⟨"", DataType.INT64, "", [], false, false, false, false, none⟩) :=
  C4_row_inference_amended Unit Unit (fun _ => DataType.UNKNOWN)
    (fun _ => DataType.INT64) (fun _ => 0)
    ⟨[⟨"x", .INT64, "", [], false, false, false, false, none⟩], "", false, none, none⟩
    [] (by decide) (by decide) (fun v => by simp)
    (by intro j h1 h2; exact absurd h2 (by simp))

/-- C4 (counterexample): a schema with two adjacent auto-id primary
fields — accepted by construction since they share a name — keeps the
second of them in `expected_fields`: the pop-during-iteration of the
source skips the element sliding into the removed slot, so the result
is NOT the schema's fields with every auto-id primary field removed
(which would be the empty list here). -/
theorem C4_row_inference_counterexample :
    CollectionSchema.init
        [⟨"a", .INT64, "", [], true, false, true, false, none⟩,
         ⟨"a", .INT64, "", [], true, false, true, false, none⟩] "" emptyCKw =
      .ok ⟨[⟨"a", .INT64, "", [], true, false, true, false, none⟩,
            ⟨"a", .INT64, "", [], true, false, true, false, none⟩], "", false,
           some ⟨"a", .INT64, "", [], true, false, true, false, none⟩, none⟩ ∧
    parse_fields_from_data (fun _ : Unit => DataType.UNKNOWN)
        (fun _ : Unit => DataType.INT64) (fun _ => 0)
        ⟨[⟨"a", .INT64, "", [], true, false, true, false, none⟩,
          ⟨"a", .INT64, "", [], true, false, true, false, none⟩], "", false,
         some ⟨"a", .INT64, "", [], true, false, true, false, none⟩, none⟩
        (.rows ([] : List (Option (List Unit)))) =
      .ok ([⟨"", .INT64, "", [], false, false, false, false, none⟩],
           [⟨"a", .INT64, "", [], true, false, true, false, none⟩], false) ∧
    [(⟨"a", .INT64, "", [], true, false, true, false, none⟩ : FieldSchema)] ≠
      [(⟨"a", .INT64, "", [], true, false, true, false, none⟩ : FieldSchema),
       ⟨"a", .INT64, "", [], true, false, true, false, none⟩].filter
        (fun f => !(f.is_primary && f.auto_id)) := by
  refine ⟨rfl, ?_, by decide⟩
  show parse_rows _ _ _ = _
  unfold parse_rows
  rw [popAutoId_eq_popPassB]
  have h1 : popPassB false
      [(⟨"a", .INT64, "", [], true, false, true, false, none⟩ : FieldSchema),
       ⟨"a", .INT64, "", [], true, false, true, false, none⟩] =
      [⟨"a", .INT64, "", [], true, false, true, false, none⟩] := rfl
  rw [h1]
  dsimp only
  have h2 : extraLoop (fun _ : Unit => DataType.INT64) ([] : List (Option (List Unit)))
      ([(⟨"a", .INT64, "", [], true, false, true, false, none⟩ : FieldSchema)]).length =
      .ok [] := by
    rw [extraLoop, dif_neg (by simp)]
  rw [h2]
  rfl

/-- The type the tabular path resolves for one column: the mapped
native type when known, otherwise the type inferred from the first-row
value (UNKNOWN when there is none). -/
def resolvedDT {N V : Type} (mapNative : N → DataType) (infer : V → DataType)
    (c : Column N V) : DataType :=
  if mapNative c.ndtype = .UNKNOWN then
    match c.vals.head? with
    | some v => infer v
    | none => .UNKNOWN
  else mapNative c.ndtype

/-- The type parameters the tabular path captures for one column:
`dim` = byte-count × 8 for a binary vector, `dim` = element count for a
float vector, nothing otherwise. -/
def expectedParams {N V : Type} (mapNative : N → DataType) (infer : V → DataType)
    (vlen : V → Nat) (c : Column N V) : Option (List (String × PVal)) :=
  if mapNative c.ndtype = .UNKNOWN then
    match c.vals.head? with
    | some v =>
      if infer v = .BINARY_VECTOR then some [("dim", .i (vlen v * 8))]
      else if infer v = .FLOAT_VECTOR then some [("dim", .i (vlen v))]
      else none
    | none => none
  else none

theorem lookup_append_pm (m l₂ : ParamsMap) (k : String) :
    List.lookup k (m ++ l₂) =
      match List.lookup k m with
      | some w => some w
      | none => List.lookup k l₂ := by
  induction m with
  | nil => simp [List.lookup]
  | cons p rest ih =>
    obtain ⟨a, b⟩ := p
    by_cases hk : (k == a) = true
    · simp [List.lookup, hk]
    · have hk' : (k == a) = false := by
        cases hb : (k == a) with
        | true => exact absurd hb hk
        | false => rfl
      simp [List.lookup, hk', ih]

theorem lookup_map_replace (m : ParamsMap) (k : String) (v : List (String × PVal)) :
    List.lookup k (m.map (fun p => if p.1 = k then (k, v) else p)) =
      if (List.lookup k m).isSome then some v else none := by
  induction m with
  | nil => simp [List.lookup]
  | cons p rest ih =>
    obtain ⟨a, b⟩ := p
    by_cases ha : a = k
    · subst ha
      simp only [List.map_cons, if_pos rfl]
      simp [List.lookup]
    · have hk' : (k == a) = false := by
        cases hb : (k == a) with
        | true => exact absurd (eq_of_beq hb) (fun hc => ha hc.symm)
        | false => rfl
      simp only [List.map_cons, if_neg ha]
      simp only [List.lookup, hk']
      exact ih

theorem lookup_map_replace_ne (m : ParamsMap) (k k' : String)
    (v : List (String × PVal)) (h : k' ≠ k) :
    List.lookup k' (m.map (fun p => if p.1 = k then (k, v) else p)) =
      List.lookup k' m := by
  induction m with
  | nil => simp
  | cons p rest ih =>
    obtain ⟨a, b⟩ := p
    by_cases ha : a = k
    · subst ha
      have hk2 : (k' == a) = false := by
        cases hb : (k' == a) with
        | true => exact absurd (eq_of_beq hb) h
        | false => rfl
      simp only [List.map_cons, if_pos rfl]
      simp [List.lookup, hk2, ih]
    · simp only [List.map_cons, if_neg ha]
      simp [List.lookup, ih]

theorem lookup_dictInsert_self (m : ParamsMap) (k : String)
    (v : List (String × PVal)) : List.lookup k (dictInsert m k v) = some v := by
  unfold dictInsert
  by_cases h : (List.lookup k m).isSome
  · rw [if_pos h, lookup_map_replace, if_pos h]
  · rw [if_neg h, lookup_append_pm]
    have hnone : List.lookup k m = none := by
      cases hl : List.lookup k m with
      | none => rfl
      | some w => rw [hl] at h; simp at h
    rw [hnone]
    simp [List.lookup]

theorem lookup_dictInsert_ne (m : ParamsMap) (k k' : String)
    (v : List (String × PVal)) (h : k' ≠ k) :
    List.lookup k' (dictInsert m k v) = List.lookup k' m := by
  unfold dictInsert
  by_cases hs : (List.lookup k m).isSome
  · rw [if_pos hs, lookup_map_replace_ne m k k' v h]
  · rw [if_neg hs, lookup_append_pm]
    have hk' : (k' == k) = false := by
      cases hb : (k' == k) with
      | true => exact absurd (eq_of_beq hb) h
      | false => rfl
    cases hl : List.lookup k' m with
    | none => simp [List.lookup, hk']
    | some w => rfl

theorem resolveCols_fst {N V : Type} (mapNative : N → DataType) (infer : V → DataType)
    (vlen : V → Nat) (df : List (Column N V)) (pm : ParamsMap) :
    (resolveCols infer vlen df (df.map (fun c => mapNative c.ndtype)) pm).1 =
      df.map (fun c => resolvedDT mapNative infer c) := by
  induction df generalizing pm with
  | nil => rfl
  | cons c cs ih =>
    simp only [List.map_cons, resolveCols]
    by_cases hU : mapNative c.ndtype = .UNKNOWN
    · rw [if_pos hU]
      rcases hH : c.vals.head? with _ | v
      · dsimp only
        rw [ih pm]
        simp [resolvedDT, hU, hH]
      · dsimp only
        rw [ih]
        simp [resolvedDT, hU, hH]
    · rw [if_neg hU]
      dsimp only
      rw [ih pm]
      simp [resolvedDT, hU]

theorem resolveCols_snd_fresh {N V : Type} (infer : V → DataType) (vlen : V → Nat)
    (df : List (Column N V)) (k : String) (hk : ∀ c ∈ df, c.name ≠ k) :
    ∀ (dts : List DataType) (pm : ParamsMap),
      List.lookup k (resolveCols infer vlen df dts pm).2 = List.lookup k pm := by
  induction df with
  | nil =>
    intro dts pm
    cases dts <;> rfl
  | cons c cs ih =>
    intro dts pm
    cases dts with
    | nil => rfl
    | cons dt dts' =>
      have hcs : ∀ c' ∈ cs, c'.name ≠ k := fun c' hc' => hk c' (List.mem_cons_of_mem _ hc')
      have hc := hk c (List.mem_cons_self _ _)
      simp only [resolveCols]
      by_cases hU : dt = .UNKNOWN
      · rw [if_pos hU]
        rcases hH : c.vals.head? with _ | v
        · dsimp only
          rw [ih hcs dts' pm]
        · dsimp only
          rw [ih hcs]
          by_cases hB : infer v = .BINARY_VECTOR
          · rw [if_pos hB, lookup_dictInsert_ne _ _ _ _ (fun hc2 => hc hc2.symm)]
          · rw [if_neg hB]
            by_cases hF : infer v = .FLOAT_VECTOR
            · rw [if_pos hF, lookup_dictInsert_ne _ _ _ _ (fun hc2 => hc hc2.symm)]
            · rw [if_neg hF]
      · rw [if_neg hU]
        dsimp only
        rw [ih hcs dts' pm]

theorem resolveCols_snd {N V : Type} (mapNative : N → DataType) (infer : V → DataType)
    (vlen : V → Nat) (df : List (Column N V)) (pm : ParamsMap)
    (hnd : (df.map (fun c => c.name)).Nodup)
    (hpm : ∀ c ∈ df, List.lookup c.name pm = none) :
    ∀ c ∈ df,
      List.lookup c.name
          (resolveCols infer vlen df (df.map (fun c => mapNative c.ndtype)) pm).2 =
        expectedParams mapNative infer vlen c := by
  induction df generalizing pm with
  | nil => intro c hc; simp at hc
  | cons c₀ cs ih =>
    have hnotin : c₀.name ∉ cs.map (fun c => c.name) := by
      rw [List.map_cons, List.nodup_cons] at hnd
      exact hnd.1
    have hndcs : (cs.map (fun c => c.name)).Nodup := by
      rw [List.map_cons, List.nodup_cons] at hnd
      exact hnd.2
    have hfreshcs : ∀ c' ∈ cs, c'.name ≠ c₀.name := by
      intro c' hc' hc2
      exact hnotin (hc2 ▸ List.mem_map_of_mem (fun c => c.name) hc')
    intro c hc
    simp only [List.map_cons, resolveCols]
    rcases List.mem_cons.mp hc with hch | hct
    · subst hch
      by_cases hU : mapNative c.ndtype = .UNKNOWN
      · rw [if_pos hU]
        rcases hH : c.vals.head? with _ | v
        · dsimp only
          rw [resolveCols_snd_fresh infer vlen cs c.name hfreshcs]
          rw [hpm c (List.mem_cons_self _ _)]
          simp [expectedParams, hU, hH]
        · dsimp only
          rw [resolveCols_snd_fresh infer vlen cs c.name hfreshcs]
          by_cases hB : infer v = .BINARY_VECTOR
          · rw [if_pos hB, lookup_dictInsert_self]
            simp [expectedParams, hU, hH, hB]
          · rw [if_neg hB]
            by_cases hF : infer v = .FLOAT_VECTOR
            · rw [if_pos hF, lookup_dictInsert_self]
              simp [expectedParams, hU, hH, hB, hF]
            · rw [if_neg hF]
              rw [hpm c (List.mem_cons_self _ _)]
              simp [expectedParams, hU, hH, hB, hF]
      · rw [if_neg hU]
        dsimp only
        rw [resolveCols_snd_fresh infer vlen cs c.name hfreshcs]
        rw [hpm c (List.mem_cons_self _ _)]
        simp [expectedParams, hU]
    · by_cases hU : mapNative c₀.ndtype = .UNKNOWN
      · rw [if_pos hU]
        rcases hH : c₀.vals.head? with _ | v
        · dsimp only
          exact ih pm hndcs (fun c' hc' => hpm c' (List.mem_cons_of_mem _ hc')) c hct
        · dsimp only
          have hpm₂ : ∀ pm₂ : ParamsMap,
              (∀ c' ∈ cs, List.lookup c'.name pm₂ = none) →
              List.lookup c.name (resolveCols infer vlen cs
                (cs.map (fun c => mapNative c.ndtype)) pm₂).2 =
                expectedParams mapNative infer vlen c :=
            fun pm₂ hp => ih pm₂ hndcs hp c hct
          by_cases hB : infer v = .BINARY_VECTOR
          · rw [if_pos hB]
            refine hpm₂ _ (fun c' hc' => ?_)
            rw [lookup_dictInsert_ne _ _ _ _ (hfreshcs c' hc')]
            exact hpm c' (List.mem_cons_of_mem _ hc')
          · rw [if_neg hB]
            by_cases hF : infer v = .FLOAT_VECTOR
            · rw [if_pos hF]
              refine hpm₂ _ (fun c' hc' => ?_)
              rw [lookup_dictInsert_ne _ _ _ _ (hfreshcs c' hc')]
              exact hpm c' (List.mem_cons_of_mem _ hc')
            · rw [if_neg hF]
              exact hpm₂ _ (fun c' hc' => hpm c' (List.mem_cons_of_mem _ hc'))
      · rw [if_neg hU]
        dsimp only
        exact ih pm hndcs (fun c' hc' => hpm c' (List.mem_cons_of_mem _ hc')) c hct

/-- C5: tabular preparation maps each column's native type to the
enumeration; a column whose mapped type is the UNKNOWN sentinel gets a
concrete type inferred from the first row's value, with dimensionality
captured into that column's type params (byte-count × 8 for binary
vectors, element count for float vectors); and it fails with
`CannotInferSchema` exactly when the table is empty while some column's
mapped type is UNKNOWN, or some column's type is still UNKNOWN after
sampling. -/
theorem C5_tabular_preparation (N V : Type) (mapNative : N → DataType)
    (infer : V → DataType) (vlen : V → Nat) (df : List (Column N V))
    (hwf : ∀ c ∈ df, c.vals.length = nrows df)
    (hnd : (df.map (fun c => c.name)).Nodup) :
    ((prepare_fields_from_dataframe mapNative infer vlen df =
        .error .cannotInferSchema) ↔
      ((nrows df = 0 ∧ ∃ c ∈ df, mapNative c.ndtype = .UNKNOWN) ∨
       (∃ c ∈ df, ∃ v, c.vals.head? = some v ∧ mapNative c.ndtype = .UNKNOWN ∧
         infer v = .UNKNOWN))) ∧
    (∀ (names : List String) (dts : List DataType) (pm : ParamsMap),
      prepare_fields_from_dataframe mapNative infer vlen df = .ok (names, dts, pm) →
      names = df.map (fun c => c.name) ∧
      dts = df.map (fun c => resolvedDT mapNative infer c) ∧
      ∀ c ∈ df, List.lookup c.name pm = expectedParams mapNative infer vlen c) := by
  by_cases hUm : DataType.UNKNOWN ∈ df.map (fun c => mapNative c.ndtype)
  · by_cases hz : nrows df = 0
    · have heval : prepare_fields_from_dataframe mapNative infer vlen df =
          .error .cannotInferSchema := by
        unfold prepare_fields_from_dataframe
        dsimp only
        rw [if_pos hUm, if_pos hz]
      constructor
      · rw [heval]
        constructor
        · intro _
          exact Or.inl ⟨hz, List.mem_map.mp hUm |>.elim
            (fun c hc => ⟨c, hc.1, hc.2⟩)⟩
        · intro _; rfl
      · intro names dts pm hok
        rw [heval] at hok
        exact Except.noConfusion hok
    · by_cases hUr : DataType.UNKNOWN ∈ df.map (fun c => resolvedDT mapNative infer c)
      · have heval : prepare_fields_from_dataframe mapNative infer vlen df =
            .error .cannotInferSchema := by
          unfold prepare_fields_from_dataframe
          dsimp only
          rw [if_pos hUm, if_neg hz]
          dsimp only
          rw [show (resolveCols infer vlen df
              (df.map (fun c => mapNative c.ndtype)) []) =
              ((resolveCols infer vlen df
                (df.map (fun c => mapNative c.ndtype)) []).1,
               (resolveCols infer vlen df
                (df.map (fun c => mapNative c.ndtype)) []).2) from rfl]
          dsimp only
          rw [resolveCols_fst mapNative infer vlen df []]
          rw [if_pos hUr]
        constructor
        · rw [heval]
          constructor
          · intro _
            obtain ⟨c, hc, hrc⟩ := List.mem_map.mp hUr
            by_cases hU : mapNative c.ndtype = .UNKNOWN
            · rcases hcv : c.vals with _ | ⟨v, vs⟩
              · exfalso
                have := hwf c hc
                rw [hcv] at this
                simp at this
                exact hz this.symm
              · refine Or.inr ⟨c, hc, v, by rw [hcv]; rfl, hU, ?_⟩
                rw [resolvedDT, if_pos hU, hcv] at hrc
                simpa using hrc
            · exfalso
              rw [resolvedDT, if_neg hU] at hrc
              exact hU hrc
          · intro _; rfl
        · intro names dts pm hok
          rw [heval] at hok
          exact Except.noConfusion hok
      · have heval : prepare_fields_from_dataframe mapNative infer vlen df =
            .ok (df.map (fun c => c.name),
              (resolveCols infer vlen df (df.map (fun c => mapNative c.ndtype)) []).1,
              (resolveCols infer vlen df (df.map (fun c => mapNative c.ndtype)) []).2) := by
          unfold prepare_fields_from_dataframe
          dsimp only
          rw [if_pos hUm, if_neg hz]
          dsimp only
          rw [show (resolveCols infer vlen df
              (df.map (fun c => mapNative c.ndtype)) []) =
              ((resolveCols infer vlen df
                (df.map (fun c => mapNative c.ndtype)) []).1,
               (resolveCols infer vlen df
                (df.map (fun c => mapNative c.ndtype)) []).2) from rfl]
          dsimp only
          rw [resolveCols_fst mapNative infer vlen df []]
          rw [if_neg hUr]
        constructor
        · rw [heval]
          constructor
          · intro hc
            exact Except.noConfusion hc
          · intro hc
            exfalso
            rcases hc with ⟨hz', _⟩ | ⟨c, hc, v, hH, hU, hIv⟩
            · exact hz hz'
            · refine hUr (List.mem_map.mpr ⟨c, hc, ?_⟩)
              rw [resolvedDT, if_pos hU, hH]
              simpa using hIv
        · intro names dts pm hok
          rw [heval] at hok
          simp only [Except.ok.injEq, Prod.mk.injEq] at hok
          obtain ⟨h1, h2, h3⟩ := hok
          refine ⟨h1.symm, ?_, ?_⟩
          · rw [← h2, resolveCols_fst mapNative infer vlen df []]
          · intro c hc
            rw [← h3]
            exact resolveCols_snd mapNative infer vlen df [] hnd
              (fun c' hc' => rfl) c hc
  · have hall : ∀ c ∈ df, mapNative c.ndtype ≠ .UNKNOWN := by
      intro c hc hU
      exact hUm (List.mem_map.mpr ⟨c, hc, hU⟩)
    have heval : prepare_fields_from_dataframe mapNative infer vlen df =
        .ok (df.map (fun c => c.name), df.map (fun c => mapNative c.ndtype), []) := by
      unfold prepare_fields_from_dataframe
      dsimp only
      rw [if_neg hUm]
      dsimp only
      rw [if_neg hUm]
    constructor
    · rw [heval]
      constructor
      · intro hc
        exact Except.noConfusion hc
      · intro hc
        exfalso
        rcases hc with ⟨_, c, hc, hU⟩ | ⟨c, hc, v, _, hU, _⟩
        · exact hall c hc hU
        · exact hall c hc hU
    · intro names dts pm hok
      rw [heval] at hok
      simp only [Except.ok.injEq, Prod.mk.injEq] at hok
      obtain ⟨h1, h2, h3⟩ := hok
      refine ⟨h1.symm, ?_, ?_⟩
      · rw [← h2]
        apply List.map_congr_left
        intro c hc
        rw [resolvedDT, if_neg (hall c hc)]
      · intro c hc
        rw [← h3, expectedParams, if_neg (hall c hc)]
        rfl

/-- Witness for C5 at a two-column frame whose second column maps to
UNKNOWN and resolves to a float vector of four elements from its first
row. -/
theorem C5_tabular_preparation_witness :
    ((prepare_fields_from_dataframe
        (fun n : Nat => if n = 0 then DataType.INT64 else DataType.UNKNOWN)
        (fun v : Nat => if v = 7 then DataType.FLOAT_VECTOR else DataType.INT64)
        (fun _ : Nat => 4)
        [⟨"a", 0, [1]⟩, ⟨"b", 1, [7]⟩] = .error .cannotInferSchema) ↔
      ((nrows [(⟨"a", 0, [1]⟩ : Column Nat Nat), ⟨"b", 1, [7]⟩] = 0 ∧
        ∃ c ∈ [(⟨"a", 0, [1]⟩ : Column Nat Nat), ⟨"b", 1, [7]⟩],
          (fun n : Nat => if n = 0 then DataType.INT64 else DataType.UNKNOWN) c.ndtype =
            .UNKNOWN) ∨
       (∃ c ∈ [(⟨"a", 0, [1]⟩ : Column Nat Nat), ⟨"b", 1, [7]⟩], ∃ v,
          c.vals.head? = some v ∧
          (fun n : Nat => if n = 0 then DataType.INT64 else DataType.UNKNOWN) c.ndtype =
            .UNKNOWN ∧
          (fun v : Nat => if v = 7 then DataType.FLOAT_VECTOR else DataType.INT64) v =
            .UNKNOWN))) ∧
    (∀ (names : List String) (dts : List DataType) (pm : ParamsMap),
      prepare_fields_from_dataframe
        (fun n : Nat => if n = 0 then DataType.INT64 else DataType.UNKNOWN)
        (fun v : Nat => if v = 7 then DataType.FLOAT_VECTOR else DataType.INT64)
        (fun _ : Nat => 4)
        [⟨"a", 0, [1]⟩, ⟨"b", 1, [7]⟩] = .ok (names, dts, pm) →
      names = [(⟨"a", 0, [1]⟩ : Column Nat Nat), ⟨"b", 1, [7]⟩].map (fun c => c.name) ∧
      dts = [(⟨"a", 0, [1]⟩ : Column Nat Nat), ⟨"b", 1, [7]⟩].map
        (fun c => resolvedDT
          (fun n : Nat => if n = 0 then DataType.INT64 else DataType.UNKNOWN)
          (fun v : Nat => if v = 7 then DataType.FLOAT_VECTOR else DataType.INT64) c) ∧
      ∀ c ∈ [(⟨"a", 0, [1]⟩ : Column Nat Nat), ⟨"b", 1, [7]⟩],
        List.lookup c.name pm = expectedParams
          (fun n : Nat => if n = 0 then DataType.INT64 else DataType.UNKNOWN)
          (fun v : Nat => if v = 7 then DataType.FLOAT_VECTOR else DataType.INT64)
          (fun _ : Nat => 4) c) :=
  C5_tabular_preparation Nat Nat _ _ _ _ (by decide) (by decide)

/-- C10: for an auto-id schema fed a DataFrame containing the primary
field's column, the insert-time check raises `DataNotMatch` when that
column holds any non-null value, and otherwise silently drops the
column and hands the remaining columns to inference and
reconciliation. -/
theorem C10_auto_id_primary_column (N V : Type) (mapNative : N → DataType)
    (infer : V → DataType) (vlen : V → Nat) (isnull : V → Bool)
    (s : CollectionSchema) (p : FieldSchema) (df : List (Column N V))
    (hp : s.primary_field = some p) (hauto : p.auto_id = true) :
    ∀ col, df.find? (fun c => c.name = p.name) = some col →
      ((∃ v ∈ col.vals, isnull v = false) →
        check_insert_schema mapNative infer vlen isnull (some s) (.frame df) =
          .error (.dataNotMatchAutoId p.name)) ∧
      ((∀ v ∈ col.vals, isnull v = true) →
        check_insert_schema mapNative infer vlen isnull (some s) (.frame df) =
          (match parse_fields_from_data mapNative infer vlen s
              (.frame (df.filter (fun c => c.name ≠ p.name))) with
           | .error e => .error e
           | .ok (infF, tmpF, fl) => check_infer_fields_valid infF tmpF fl)) := by
  intro col hfind
  constructor
  · rintro ⟨v, hv, hnull⟩
    have hall : col.vals.all isnull = false := by
      cases hb : col.vals.all isnull with
      | false => rfl
      | true =>
        rw [List.all_eq_true] at hb
        rw [hb v hv] at hnull
        exact Bool.noConfusion hnull
    unfold check_insert_schema
    dsimp only
    rw [hp]
    dsimp only
    rw [hauto]
    simp only [eq_self_iff_true, if_true]
    rw [hfind]
    dsimp only
    rw [hall]
    rw [if_pos (by simp)]
  · intro hnulls
    have hall : col.vals.all isnull = true := List.all_eq_true.mpr hnulls
    unfold check_insert_schema
    dsimp only
    rw [hp]
    dsimp only
    rw [hauto]
    simp only [eq_self_iff_true, if_true]
    rw [hfind]
    dsimp only
    rw [hall]
    rw [if_neg (by simp)]

/-- Witness for C10: a one-column frame holding only the auto-id
primary column; the value 5 (non-null) raises, the value 0 (null) is
dropped leaving an empty frame for inference. -/
theorem C10_auto_id_primary_column_witness :
    (check_insert_schema (fun _ : Nat => DataType.INT64) (fun _ : Nat => DataType.INT64)
        (fun _ : Nat => 0) (fun v : Nat => v == 0)
        (some ⟨[⟨"id", .INT64, "", [], true, false, true, false, none⟩], "", false,
          some ⟨"id", .INT64, "", [], true, false, true, false, none⟩, none⟩)
        (.frame [⟨"id", 0, [5]⟩]) = .error (.dataNotMatchAutoId "id")) ∧
    (check_insert_schema (fun _ : Nat => DataType.INT64) (fun _ : Nat => DataType.INT64)
        (fun _ : Nat => 0) (fun v : Nat => v == 0)
        (some ⟨[⟨"id", .INT64, "", [], true, false, true, false, none⟩], "", false,
          some ⟨"id", .INT64, "", [], true, false, true, false, none⟩, none⟩)
        (.frame [⟨"id", 0, [0]⟩]) =
      (match parse_fields_from_data (fun _ : Nat => DataType.INT64)
          (fun _ : Nat => DataType.INT64) (fun _ : Nat => 0)
          ⟨[⟨"id", .INT64, "", [], true, false, true, false, none⟩], "", false,
           some ⟨"id", .INT64, "", [], true, false, true, false, none⟩, none⟩
          (.frame ([(⟨"id", 0, [0]⟩ : Column Nat Nat)].filter
            (fun c => c.name ≠ "id"))) with
       | .error e => .error e
       | .ok (infF, tmpF, fl) => check_infer_fields_valid infF tmpF fl)) :=
  ⟨(C10_auto_id_primary_column Nat Nat _ _ _ _ _ _ _ rfl rfl ⟨"id", 0, [5]⟩ (by decide)).1
      (by decide),
   (C10_auto_id_primary_column Nat Nat _ _ _ _ _ _ _ rfl rfl ⟨"id", 0, [0]⟩ (by decide)).2
      (by decide)⟩

/-- Extracting type parameters is idempotent. -/
theorem parseTypeParams_idem (dt : DataType) (kws : List (String × PVal)) :
    parseTypeParams dt (parseTypeParams dt kws) = parseTypeParams dt kws := by
  unfold parseTypeParams
  split
  · rcases h1 : List.lookup "dim" kws with _ | v1 <;>
      rcases h2 : List.lookup "max_length" kws with _ | v2 <;>
      simp [COMMON_TYPE_PARAMS, h1, h2, List.lookup]
  · rfl

/-- Every field the constructor returns satisfies the construction
invariants. -/
theorem init_WF (name : String) (dtype : DataType) (desc : String) (kw : FKwargs)
    (f : FieldSchema) (h : FieldSchema.init name dtype desc kw = .ok f) :
    f.WF := by
  unfold FieldSchema.init at h
  by_cases hU : dtype = .UNKNOWN
  · rw [if_pos hU] at h
    exact Except.noConfusion h
  · rw [if_neg hU] at h
    dsimp only at h
    by_cases hA : (kw.auto_id.isSome &&
        (!kw.is_primary.getD false && kw.auto_id.getD false)) = true
    · rw [if_pos hA] at h
      exact Except.noConfusion h
    · rw [if_neg hA] at h
      cases hd : resolveDefault kw.default_value with
      | error e => rw [hd] at h; exact Except.noConfusion h
      | ok dv =>
        rw [hd] at h
        simp only [Except.ok.injEq] at h
        subst h
        refine ⟨hU, ?_, ?_⟩
        · intro hauto
          dsimp only at hauto ⊢
          rcases ha : kw.auto_id with _ | b
          · rw [ha] at hauto
            exact Bool.noConfusion hauto
          · rw [ha] at hA hauto
            rcases hb : kw.is_primary.getD false with _ | _
            · exfalso
              apply hA
              simp [hb, hauto]
            · rfl
        · dsimp only
          exact (parseTypeParams_idem dtype kw.type_kwargs).symm

/-- Deserialization is a left inverse of serialization on well-formed
fields (the field part of the round-trip). -/
theorem construct_to_dict (f : FieldSchema) (h : f.WF) :
    FieldSchema.construct_from_dict f.to_dict = .ok f := by
  obtain ⟨hU, hA, hT⟩ := h
  obtain ⟨nm, dt, ds, tp, ip, idn, aid, ipk, dfv⟩ := f
  dsimp only at hU hA hT
  unfold FieldSchema.construct_from_dict FieldSchema.to_dict
  dsimp only
  unfold FieldSchema.init
  rw [if_neg hU]
  dsimp only
  have hdv : resolveDefault (match dfv with
      | some v => DefaultInput.valueField (some v)
      | none => DefaultInput.pynone) = .ok dfv := by
    cases dfv with
    | none => rfl
    | some v => rfl
  have htp : parseTypeParams dt ((if tp = [] then none else some tp).getD []) = tp := by
    by_cases he : tp = []
    · rw [if_pos he, he]
      exact parseTypeParams_nil dt
    · rw [if_neg he]
      simpa using hT.symm
  cases ip with
  | false =>
    cases aid with
    | true => exact absurd (hA rfl) (by simp)
    | false => cases idn <;> cases ipk <;> simp [hdv, htp]
  | true =>
    cases aid <;> cases idn <;> cases ipk <;> simp [hdv, htp]

/-- Rebuilding every serialized field of a well-formed list succeeds
and returns the same list. -/
theorem mapM_construct (l : List FieldSchema) (h : ∀ f ∈ l, f.WF) :
    (l.map FieldSchema.to_dict).mapM FieldSchema.construct_from_dict = .ok l := by
  induction l with
  | nil => rfl
  | cons f rest ih =>
    rw [List.map_cons, List.mapM_cons]
    rw [construct_to_dict f (h f (List.mem_cons_self _ _))]
    rw [ih (fun g hg => h g (List.mem_cons_of_mem _ hg))]
    rfl

/-- Relation between a loop state of the original `_check_fields` run
and the state at the same position when the loop is re-run on the
stored (already flag-mutated) fields with no constructor hints: the
recorded indices agree, and the pending names agree once a primary /
partition-key field has been recorded (before that, the re-run has no
pending name). -/
def Compat (st st0 : ChkSt) : Prop :=
  st0.pIdx = st.pIdx ∧ st0.pkIdx = st.pkIdx ∧
  (st.pIdx ≠ none → st0.pfName = st.pfName) ∧ (st.pIdx = none → st0.pfName = none) ∧
  (st.pkIdx ≠ none → st0.pkName = st.pkName) ∧ (st.pkIdx = none → st0.pkName = none)

/-- Fields agreeing on name and both flags (they may differ in
`auto_id`, which the loop never consults). -/
def FSim (a b : FieldSchema) : Prop :=
  a.name = b.name ∧ a.is_primary = b.is_primary ∧ a.is_partition_key = b.is_partition_key

theorem mutP_name (st : ChkSt) (f : FieldSchema) : (mutP st f).name = f.name := by
  unfold mutP; split <;> rfl

theorem mutK_name (st : ChkSt) (f : FieldSchema) : (mutK st f).name = f.name := by
  unfold mutK; split <;> rfl

theorem mutK_primary (st : ChkSt) (f : FieldSchema) :
    (mutK st f).is_primary = f.is_primary := by
  unfold mutK; split <;> rfl

theorem mutP_pk (st : ChkSt) (f : FieldSchema) :
    (mutP st f).is_partition_key = f.is_partition_key := by
  unfold mutP; split <;> rfl

theorem set_primary_eq (g : FieldSchema) (h : g.is_primary = true) :
    ({ g with is_primary := true } : FieldSchema) = g := by
  obtain ⟨nm, dt, ds, tp, ip, idn, aid, ipk, dfv⟩ := g
  dsimp only at h
  rw [h]

theorem set_pk_eq (g : FieldSchema) (h : g.is_partition_key = true) :
    ({ g with is_partition_key := true } : FieldSchema) = g := by
  obtain ⟨nm, dt, ds, tp, ip, idn, aid, ipk, dfv⟩ := g
  dsimp only at h
  rw [h]

theorem primBlock_recheck (fld g : FieldSchema) (i : Nat) (st st0 stA₁ : ChkSt)
    (h : primBlock fld i st = .ok stA₁) (hC : Compat st st0)
    (hSp : fld.is_primary = g.is_primary) (hSn : fld.name = g.name) :
    ∃ stB₁, primBlock g i st0 = .ok stB₁ ∧ Compat stA₁ stB₁ := by
  obtain ⟨hI, hKI, hpfS, hpfN, hpkS, hpkN⟩ := hC
  unfold primBlock at h ⊢
  cases hfp : fld.is_primary with
  | false =>
    rw [hfp] at h
    simp only [Bool.false_eq_true, if_false, Except.ok.injEq] at h
    subst h
    rw [← hSp, hfp]
    exact ⟨st0, by simp, hI, hKI, hpfS, hpfN, hpkS, hpkN⟩
  | true =>
    rw [hfp] at h
    simp only [if_true] at h
    rw [← hSp, hfp]
    simp only [if_true]
    by_cases hcond : st.pfName ≠ none ∧ st.pfName ≠ some fld.name
    · rw [if_pos hcond] at h
      exact Except.noConfusion h
    · rw [if_neg hcond] at h
      simp only [Except.ok.injEq] at h
      subst h
      cases hpi : st.pIdx with
      | none =>
        have h0 : st0.pfName = none := hpfN hpi
        have hcond0 : ¬(st0.pfName ≠ none ∧ st0.pfName ≠ some g.name) := by
          rw [h0]; simp
        rw [if_neg hcond0]
        refine ⟨_, rfl, ?_⟩
        refine ⟨by simp [hI], by simp [hKI], ?_, ?_, ?_, ?_⟩
        · intro _; simp [hSn]
        · intro hc; simp at hc
        · intro hne; exact hpkS hne
        · intro hne; exact hpkN hne
      | some j =>
        have h0 : st0.pfName = st.pfName := hpfS (by rw [hpi]; simp)
        have hcond0 : ¬(st0.pfName ≠ none ∧ st0.pfName ≠ some g.name) := by
          rw [h0, ← hSn]
          exact hcond
        rw [if_neg hcond0]
        refine ⟨_, rfl, ?_⟩
        refine ⟨by simp [hI], by simp [hKI], ?_, ?_, ?_, ?_⟩
        · intro _; simp [hSn]
        · intro hc; simp at hc
        · intro hne; exact hpkS hne
        · intro hne; exact hpkN hne

theorem pkBlock_recheck (fld g : FieldSchema) (i : Nat) (st st0 stA₁ : ChkSt)
    (h : pkBlock fld i st = .ok stA₁) (hC : Compat st st0)
    (hSk : fld.is_partition_key = g.is_partition_key) (hSn : fld.name = g.name) :
    ∃ stB₁, pkBlock g i st0 = .ok stB₁ ∧ Compat stA₁ stB₁ := by
  obtain ⟨hI, hKI, hpfS, hpfN, hpkS, hpkN⟩ := hC
  unfold pkBlock at h ⊢
  cases hfp : fld.is_partition_key with
  | false =>
    rw [hfp] at h
    simp only [Bool.false_eq_true, if_false, Except.ok.injEq] at h
    subst h
    rw [← hSk, hfp]
    exact ⟨st0, by simp, hI, hKI, hpfS, hpfN, hpkS, hpkN⟩
  | true =>
    rw [hfp] at h
    simp only [if_true] at h
    rw [← hSk, hfp]
    simp only [if_true]
    by_cases hcond : st.pkName ≠ none ∧ st.pkName ≠ some fld.name
    · rw [if_pos hcond] at h
      exact Except.noConfusion h
    · rw [if_neg hcond] at h
      simp only [Except.ok.injEq] at h
      subst h
      cases hpi : st.pkIdx with
      | none =>
        have h0 : st0.pkName = none := hpkN hpi
        have hcond0 : ¬(st0.pkName ≠ none ∧ st0.pkName ≠ some g.name) := by
          rw [h0]; simp
        rw [if_neg hcond0]
        refine ⟨_, rfl, ?_⟩
        refine ⟨by simp [hI], by simp [hKI], ?_, ?_, ?_, ?_⟩
        · intro hne; exact hpfS hne
        · intro hne; exact hpfN hne
        · intro _; simp [hSn]
        · intro hc; simp at hc
      | some j =>
        have h0 : st0.pkName = st.pkName := hpkS (by rw [hpi]; simp)
        have hcond0 : ¬(st0.pkName ≠ none ∧ st0.pkName ≠ some g.name) := by
          rw [h0, ← hSn]
          exact hcond
        rw [if_neg hcond0]
        refine ⟨_, rfl, ?_⟩
        refine ⟨by simp [hI], by simp [hKI], ?_, ?_, ?_, ?_⟩
        · intro hne; exact hpfS hne
        · intro hne; exact hpfN hne
        · intro _; simp [hSn]
        · intro hc; simp at hc

theorem checkStep_recheck (f : FieldSchema) (i : Nat) (st : ChkSt) (f' : FieldSchema)
    (stA : ChkSt) (h : checkStep f i st = .ok (f', stA)) (st0 : ChkSt) (g : FieldSchema)
    (hC : Compat st st0) (hS : FSim f' g) :
    ∃ stB, checkStep g i st0 = .ok (g, stB) ∧ Compat stA stB := by
  unfold checkStep at h
  dsimp only at h
  cases hPB : primBlock (mutK st (mutP st f)) i st with
  | error e => rw [hPB] at h; exact Except.noConfusion h
  | ok stA₁ =>
    rw [hPB] at h
    dsimp only at h
    cases hKB : pkBlock (mutK st (mutP st f)) i stA₁ with
    | error e => rw [hKB] at h; exact Except.noConfusion h
    | ok stA₂ =>
      rw [hKB] at h
      dsimp only at h
      simp only [Except.ok.injEq, Prod.mk.injEq] at h
      obtain ⟨hf', hstA⟩ := h
      subst hstA
      subst hf'
      obtain ⟨hSn, hSp, hSk⟩ := hS
      have hname : (mutK st (mutP st f)).name = f.name := by
        rw [mutK_name, mutP_name]
      have hgn : g.name = f.name := hSn.symm.trans hname
      have hgP : mutP st0 g = g := by
        unfold mutP
        by_cases h1 : st0.pfName = some g.name
        · rw [if_pos h1]
          apply set_primary_eq
          obtain ⟨hI, hKI, hpfS, hpfN, hpkS, hpkN⟩ := hC
          cases hpi : st.pIdx with
          | none => exact absurd h1 (by rw [hpfN hpi]; simp)
          | some j =>
            have h0 : st0.pfName = st.pfName := hpfS (by rw [hpi]; simp)
            have hstpf : st.pfName = some f.name := by
              rw [← h0, h1, hgn]
            have hmut : mutP st f = { f with is_primary := true } := by
              unfold mutP
              rw [if_pos (by rw [hstpf])]
            rw [← hSp, mutK_primary, hmut]
        · rw [if_neg h1]
      have hgK : mutK st0 g = g := by
        unfold mutK
        by_cases h1 : st0.pkName = some g.name
        · rw [if_pos h1]
          apply set_pk_eq
          obtain ⟨hI, hKI, hpfS, hpfN, hpkS, hpkN⟩ := hC
          cases hpi : st.pkIdx with
          | none => exact absurd h1 (by rw [hpkN hpi]; simp)
          | some j =>
            have h0 : st0.pkName = st.pkName := hpkS (by rw [hpi]; simp)
            have hstpk : st.pkName = some (mutP st f).name := by
              rw [mutP_name, ← h0, h1, hgn]
            have hmut : mutK st (mutP st f) =
                { (mutP st f) with is_partition_key := true } := by
              unfold mutK
              rw [if_pos hstpk]
            rw [← hSk, hmut]
        · rw [if_neg h1]
      obtain ⟨stB₁, hpb', hC₁⟩ :=
        primBlock_recheck (mutK st (mutP st f)) g i st st0 stA₁ hPB hC hSp hSn
      obtain ⟨stB₂, hkb', hC₂⟩ :=
        pkBlock_recheck (mutK st (mutP st f)) g i stA₁ stB₁ stA₂ hKB hC₁ hSk hSn
      refine ⟨stB₂, ?_, hC₂⟩
      unfold checkStep
      dsimp only
      rw [hgP, hgK, hpb']
      dsimp only
      rw [hkb']

theorem checkLoop_recheck (fs : List FieldSchema) (i : Nat) (st : ChkSt)
    (fs1 : List FieldSchema) (st1 : ChkSt)
    (h : checkLoop fs i st = .ok (fs1, st1)) :
    ∀ (st0 : ChkSt) (fs2 : List FieldSchema), Compat st st0 →
      List.Forall₂ FSim fs1 fs2 →
      ∃ st2, checkLoop fs2 i st0 = .ok (fs2, st2) ∧ Compat st1 st2 := by
  induction fs generalizing i st fs1 st1 with
  | nil =>
    intro st0 fs2 hC hF
    simp only [checkLoop, Except.ok.injEq, Prod.mk.injEq] at h
    obtain ⟨h1, h2⟩ := h
    subst h1
    subst h2
    cases hF
    exact ⟨st0, rfl, hC⟩
  | cons f rest ih =>
    intro st0 fs2 hC hF
    rw [checkLoop] at h
    cases hS : checkStep f i st with
    | error e => rw [hS] at h; exact Except.noConfusion h
    | ok p =>
      obtain ⟨f', stA⟩ := p
      rw [hS] at h
      dsimp only at h
      cases hr : checkLoop rest (i + 1) stA with
      | error e => rw [hr] at h; exact Except.noConfusion h
      | ok q =>
        obtain ⟨rest1, st1'⟩ := q
        rw [hr] at h
        dsimp only at h
        simp only [Except.ok.injEq, Prod.mk.injEq] at h
        obtain ⟨hfs1, hst1⟩ := h
        subst hfs1
        subst hst1
        cases hF with
        | cons hFhead hFtail =>
          rename_i g rest2
          obtain ⟨stB, hstep', hC'⟩ := checkStep_recheck f i st f' stA hS st0 g hC hFhead
          obtain ⟨st2, hloop', hC''⟩ := ih (i + 1) stA rest1 st1' hr stB rest2 hC' hFtail
          refine ⟨st2, ?_, hC''⟩
          rw [checkLoop, hstep']
          dsimp only
          rw [hloop']

theorem pkBlock_pIdx (f : FieldSchema) (i : Nat) (st st₂ : ChkSt)
    (h : pkBlock f i st = .ok st₂) : st₂.pIdx = st.pIdx ∧ st₂.pfName = st.pfName := by
  unfold pkBlock at h
  cases hfp : f.is_partition_key with
  | false =>
    rw [hfp] at h
    simp only [Bool.false_eq_true, if_false, Except.ok.injEq] at h
    subst h
    exact ⟨rfl, rfl⟩
  | true =>
    rw [hfp] at h
    simp only [if_true] at h
    by_cases hcond : st.pkName ≠ none ∧ st.pkName ≠ some f.name
    · rw [if_pos hcond] at h
      exact Except.noConfusion h
    · rw [if_neg hcond] at h
      simp only [Except.ok.injEq] at h
      subst h
      exact ⟨rfl, rfl⟩

theorem checkStep_pIdx (f : FieldSchema) (i : Nat) (st : ChkSt) (f' : FieldSchema)
    (stA : ChkSt) (h : checkStep f i st = .ok (f', stA)) :
    stA.pIdx = st.pIdx ∨ (stA.pIdx = some i ∧ f'.is_primary = true) := by
  unfold checkStep at h
  dsimp only at h
  cases hPB : primBlock (mutK st (mutP st f)) i st with
  | error e => rw [hPB] at h; exact Except.noConfusion h
  | ok stA₁ =>
    rw [hPB] at h
    dsimp only at h
    cases hKB : pkBlock (mutK st (mutP st f)) i stA₁ with
    | error e => rw [hKB] at h; exact Except.noConfusion h
    | ok stA₂ =>
      rw [hKB] at h
      dsimp only at h
      simp only [Except.ok.injEq, Prod.mk.injEq] at h
      obtain ⟨hf', hstA⟩ := h
      subst hstA
      subst hf'
      have hpk := pkBlock_pIdx _ _ _ _ hKB
      unfold primBlock at hPB
      cases hfp : (mutK st (mutP st f)).is_primary with
      | false =>
        rw [hfp] at hPB
        simp only [Bool.false_eq_true, if_false, Except.ok.injEq] at hPB
        subst hPB
        exact Or.inl hpk.1
      | true =>
        rw [hfp] at hPB
        simp only [if_true] at hPB
        by_cases hcond : st.pfName ≠ none ∧ st.pfName ≠ some (mutK st (mutP st f)).name
        · rw [if_pos hcond] at hPB
          exact Except.noConfusion hPB
        · rw [if_neg hcond] at hPB
          simp only [Except.ok.injEq] at hPB
          subst hPB
          exact Or.inr ⟨hpk.1, rfl⟩

theorem checkLoop_pIdx_flag (fs : List FieldSchema) (i : Nat) (st : ChkSt)
    (fs1 : List FieldSchema) (st1 : ChkSt) (h : checkLoop fs i st = .ok (fs1, st1)) :
    ∀ j, st1.pIdx = some j → st.pIdx = some j ∨
      (i ≤ j ∧ ∃ fj, fs1[j - i]? = some fj ∧ fj.is_primary = true) := by
  induction fs generalizing i st fs1 st1 with
  | nil =>
    intro j hj
    simp only [checkLoop, Except.ok.injEq, Prod.mk.injEq] at h
    obtain ⟨h1, h2⟩ := h
    subst h1
    subst h2
    exact Or.inl hj
  | cons f rest ih =>
    intro j hj
    rw [checkLoop] at h
    cases hS : checkStep f i st with
    | error e => rw [hS] at h; exact Except.noConfusion h
    | ok p =>
      obtain ⟨f', stA⟩ := p
      rw [hS] at h
      dsimp only at h
      cases hr : checkLoop rest (i + 1) stA with
      | error e => rw [hr] at h; exact Except.noConfusion h
      | ok q =>
        obtain ⟨rest1, st1'⟩ := q
        rw [hr] at h
        dsimp only at h
        simp only [Except.ok.injEq, Prod.mk.injEq] at h
        obtain ⟨hfs1, hst1⟩ := h
        subst hfs1
        subst hst1
        rcases ih (i + 1) stA rest1 st1' hr j hj with hA | ⟨hle, fj, hget, hflag⟩
        · rcases checkStep_pIdx f i st f' stA hS with hB | ⟨hB, hflag⟩
          · exact Or.inl (hB ▸ hA)
          · rw [hA] at hB
            have hji : j = i := by
              have := Option.some.inj hB
              omega
            subst hji
            refine Or.inr ⟨le_rfl, f', ?_, hflag⟩
            simp
        · refine Or.inr ⟨by omega, fj, ?_, hflag⟩
          have hsub : j - i = (j - (i + 1)) + 1 := by omega
          rw [hsub]
          simpa using hget

theorem WF_mutP (st : ChkSt) (f : FieldSchema) (h : f.WF) : (mutP st f).WF := by
  obtain ⟨hU, hA, hT⟩ := h
  unfold mutP
  split
  · exact ⟨hU, fun _ => rfl, hT⟩
  · exact ⟨hU, hA, hT⟩

theorem WF_mutK (st : ChkSt) (f : FieldSchema) (h : f.WF) : (mutK st f).WF := by
  obtain ⟨hU, hA, hT⟩ := h
  unfold mutK
  split
  · exact ⟨hU, hA, hT⟩
  · exact ⟨hU, hA, hT⟩

theorem checkStep_WF (f : FieldSchema) (i : Nat) (st : ChkSt) (f' : FieldSchema)
    (stA : ChkSt) (h : checkStep f i st = .ok (f', stA)) (hwf : f.WF) : f'.WF := by
  unfold checkStep at h
  dsimp only at h
  cases hPB : primBlock (mutK st (mutP st f)) i st with
  | error e => rw [hPB] at h; exact Except.noConfusion h
  | ok stA₁ =>
    rw [hPB] at h
    dsimp only at h
    cases hKB : pkBlock (mutK st (mutP st f)) i stA₁ with
    | error e => rw [hKB] at h; exact Except.noConfusion h
    | ok stA₂ =>
      rw [hKB] at h
      dsimp only at h
      simp only [Except.ok.injEq, Prod.mk.injEq] at h
      obtain ⟨hf', _⟩ := h
      subst hf'
      exact WF_mutK st _ (WF_mutP st f hwf)

theorem checkLoop_WF (fs : List FieldSchema) (i : Nat) (st : ChkSt)
    (fs1 : List FieldSchema) (st1 : ChkSt) (h : checkLoop fs i st = .ok (fs1, st1))
    (hwf : ∀ f ∈ fs, f.WF) : ∀ f ∈ fs1, f.WF := by
  induction fs generalizing i st fs1 st1 with
  | nil =>
    simp only [checkLoop, Except.ok.injEq, Prod.mk.injEq] at h
    obtain ⟨h1, _⟩ := h
    subst h1
    exact hwf
  | cons f rest ih =>
    rw [checkLoop] at h
    cases hS : checkStep f i st with
    | error e => rw [hS] at h; exact Except.noConfusion h
    | ok p =>
      obtain ⟨f', stA⟩ := p
      rw [hS] at h
      dsimp only at h
      cases hr : checkLoop rest (i + 1) stA with
      | error e => rw [hr] at h; exact Except.noConfusion h
      | ok q =>
        obtain ⟨rest1, st1'⟩ := q
        rw [hr] at h
        dsimp only at h
        simp only [Except.ok.injEq, Prod.mk.injEq] at h
        obtain ⟨hfs1, _⟩ := h
        subst hfs1
        intro g hg
        rcases List.mem_cons.mp hg with hgh | hgr
        · subst hgh
          exact checkStep_WF f i st g stA hS (hwf f (List.mem_cons_self _ _))
        · exact ih (i + 1) stA rest1 st1' hr
            (fun x hx => hwf x (List.mem_cons_of_mem _ hx)) g hgr

theorem updateAt_getElem (fs : List FieldSchema) (j k : Nat)
    (g : FieldSchema → FieldSchema) :
    (updateAt fs j g)[k]? = if k = j then (fs[k]?).map g else fs[k]? := by
  induction fs generalizing j k with
  | nil =>
    unfold updateAt
    simp
  | cons f rest ih =>
    cases j with
    | zero =>
      cases k with
      | zero => simp [updateAt]
      | succ m => simp [updateAt]
    | succ n =>
      cases k with
      | zero => simp [updateAt]
      | succ m =>
        simp only [updateAt, List.getElem?_cons_succ]
        rw [ih n m]
        simp [Nat.succ_inj]

theorem fsim_refl_list (l : List FieldSchema) : List.Forall₂ FSim l l := by
  induction l with
  | nil => exact List.Forall₂.nil
  | cons f rest ih => exact List.Forall₂.cons ⟨rfl, rfl, rfl⟩ ih

theorem fsim_updateAt (fs : List FieldSchema) (j : Nat) :
    List.Forall₂ FSim fs (updateAt fs j (fun f => { f with auto_id := true })) := by
  induction fs generalizing j with
  | nil => exact List.Forall₂.nil
  | cons f rest ih =>
    cases j with
    | zero => exact List.Forall₂.cons ⟨rfl, rfl, rfl⟩ (fsim_refl_list rest)
    | succ n => exact List.Forall₂.cons ⟨rfl, rfl, rfl⟩ (ih n)

theorem updateAt_WF (fs : List FieldSchema) (j : Nat)
    (hwf : ∀ f ∈ fs, f.WF)
    (hj : ∀ fj, fs[j]? = some fj → fj.is_primary = true) :
    ∀ f ∈ updateAt fs j (fun f => { f with auto_id := true }), f.WF := by
  induction fs generalizing j with
  | nil => intro f hf; simp [updateAt] at hf
  | cons f rest ih =>
    cases j with
    | zero =>
      intro g hg
      rcases List.mem_cons.mp hg with hgh | hgr
      · subst hgh
        obtain ⟨hU, _, hT⟩ := hwf f (List.mem_cons_self _ _)
        have hp := hj f (by simp)
        exact ⟨hU, fun _ => hp, hT⟩
      · exact hwf g (List.mem_cons_of_mem _ hgr)
    | succ n =>
      intro g hg
      rcases List.mem_cons.mp hg with hgh | hgr
      · subst hgh
        exact hwf g (List.mem_cons_self _ _)
      · exact ih n (fun x hx => hwf x (List.mem_cons_of_mem _ hx))
          (fun fj hfj => hj fj (by simpa using hfj)) g hgr

theorem validate_primary_key_ok (pf : Option FieldSchema)
    (h : validate_primary_key pf = .ok ()) :
    ∃ f, pf = some f ∧ (f.dtype = .INT64 ∨ f.dtype = .VARCHAR) := by
  cases pf with
  | none => simp [validate_primary_key] at h
  | some f =>
    unfold validate_primary_key at h
    by_cases hd : f.dtype = .INT64 ∨ f.dtype = .VARCHAR
    · exact ⟨f, rfl, hd⟩
    · dsimp only at h
      rw [if_neg hd] at h
      exact Except.noConfusion h

theorem validate_partition_key_ok (n : Option String) (pk : Option FieldSchema)
    (nm : String) (h : validate_partition_key n pk nm = .ok ()) :
    (pk = none ∧ n = none) ∨
    (∃ f, pk = some f ∧ (f.dtype = .INT64 ∨ f.dtype = .VARCHAR)) := by
  cases pk with
  | some f =>
    unfold validate_partition_key at h
    by_cases hd : f.dtype = .INT64 ∨ f.dtype = .VARCHAR
    · exact Or.inr ⟨f, rfl, hd⟩
    · dsimp only at h
      rw [if_neg hd] at h
      exact Except.noConfusion h
  | none =>
    cases n with
    | none => exact Or.inl ⟨rfl, rfl⟩
    | some x => simp [validate_partition_key] at h

theorem init_check_on (fs : List FieldSchema) (ds : String) (e : Option Bool) :
    CollectionSchema.init fs ds ⟨none, none, none, e, none⟩ =
    (match checkFieldsFull fs ⟨none, none, none, e, none⟩ with
     | .error er => .error er
     | .ok (fs2, pi, pki) =>
        .ok { fields := fs2, description := ds,
              enable_dynamic_field := e.getD false,
              primary_field := pi.bind (fun i => fs2[i]?),
              partition_key_field := pki.bind (fun i => fs2[i]?) }) := by
  unfold CollectionSchema.init
  rfl

/-- C2: serialize-then-deserialize is the identity, both for every
field the field constructor accepts and for every collection the
collection constructor accepts (built from constructor-produced,
well-formed fields), equality taken on the serialized `to_dict`
forms. -/
theorem C2_serialization_roundtrip :
    (∀ (name : String) (dtype : DataType) (desc : String) (kw : FKwargs)
       (f : FieldSchema),
      FieldSchema.init name dtype desc kw = .ok f →
      ∃ g, FieldSchema.construct_from_dict f.to_dict = .ok g ∧
        g.to_dict = f.to_dict) ∧
    (∀ (fields : List FieldSchema) (desc : String) (kw : CKwargs)
       (s : CollectionSchema) (d : CollDict),
      (∀ f ∈ fields, f.WF) →
      CollectionSchema.init fields desc kw = .ok s → s.to_dict = some d →
      ∃ t, CollectionSchema.construct_from_dict d = .ok t ∧
        t.to_dict = s.to_dict) := by
  constructor
  · intro name dtype desc kw f h
    exact ⟨f, construct_to_dict f (init_WF name dtype desc kw f h), rfl⟩
  · intro fields desc kw s d hwf hinit hdict
    by_cases hcf : kw.check_fields.getD true = true
    · unfold CollectionSchema.init at hinit
      rw [if_pos hcf] at hinit
      unfold checkFieldsFull at hinit
      cases hloop : checkLoop fields 0
          ⟨kw.primary_field, kw.partition_key_field, none, none⟩ with
      | error e => rw [hloop] at hinit; exact Except.noConfusion hinit
      | ok p =>
        obtain ⟨fs1, st⟩ := p
        rw [hloop] at hinit
        dsimp only at hinit
        cases hvp : validate_primary_key (st.pIdx.bind (fun i => fs1[i]?)) with
        | error e => rw [hvp] at hinit; exact Except.noConfusion hinit
        | ok u =>
          cases u
          rw [hvp] at hinit
          dsimp only at hinit
          cases hvk : validate_partition_key st.pkName
              (st.pkIdx.bind (fun i => fs1[i]?))
              ((Option.map (fun f => f.name)
                (st.pIdx.bind (fun i => fs1[i]?))).getD "") with
          | error e => rw [hvk] at hinit; exact Except.noConfusion hinit
          | ok u2 =>
            cases u2
            rw [hvk] at hinit
            dsimp only at hinit
            obtain ⟨pf₁, hpf₁, hdt₁⟩ := validate_primary_key_ok _ hvp
            cases hpi : st.pIdx with
            | none =>
              rw [hpi] at hpf₁
              exact Option.noConfusion hpf₁
            | some j =>
              rw [hpi] at hpf₁ hinit
              simp only [Option.some_bind] at hpf₁ hinit
              simp only [Except.ok.injEq] at hinit
              subst hinit
              have hwf1 : ∀ f ∈ fs1, f.WF :=
                checkLoop_WF fields 0 _ fs1 st hloop hwf
              have hflagj : ∀ fj, fs1[j]? = some fj → fj.is_primary = true := by
                intro fj hfj
                rcases checkLoop_pIdx_flag fields 0 _ fs1 st hloop j hpi with hc | ⟨_, fj', hg', hp'⟩
                · exact Option.noConfusion hc
                · simp only [Nat.sub_zero] at hg'
                  rw [hfj] at hg'
                  rw [← Option.some.inj hg'] at hp'
                  exact hp'
              have hSim : List.Forall₂ FSim fs1
                  (if kw.auto_id.getD false = true then
                    updateAt fs1 j (fun f => { f with auto_id := true })
                  else fs1) := by
                split
                · exact fsim_updateAt fs1 j
                · exact fsim_refl_list fs1
              have hWF' : ∀ f ∈ (if kw.auto_id.getD false = true then
                    updateAt fs1 j (fun f => { f with auto_id := true })
                  else fs1), f.WF := by
                split
                · exact updateAt_WF fs1 j hwf1 hflagj
                · exact hwf1
              have hgetDT : ∀ k : Nat, Option.map (fun f : FieldSchema => f.dtype)
                  ((if kw.auto_id.getD false = true then
                    updateAt fs1 j (fun f => { f with auto_id := true })
                  else fs1)[k]?) = Option.map (fun f : FieldSchema => f.dtype) (fs1[k]?) := by
                intro k
                split
                · rw [updateAt_getElem]
                  by_cases hkj : k = j
                  · rw [if_pos hkj]
                    cases fs1[k]? <;> rfl
                  · rw [if_neg hkj]
                · rfl
              obtain ⟨st2, hloop2, hC2⟩ := checkLoop_recheck fields 0
                ⟨kw.primary_field, kw.partition_key_field, none, none⟩ fs1 st hloop
                ⟨none, none, none, none⟩ _
                ⟨rfl, rfl, fun hc => absurd rfl hc, fun _ => rfl,
                 fun hc => absurd rfl hc, fun _ => rfl⟩ hSim
              obtain ⟨hI2, hKI2, hpfS2, hpfN2, hpkS2, hpkN2⟩ := hC2
              obtain ⟨pf₂, hpf₂, hdt₂⟩ : ∃ pf₂,
                  (if kw.auto_id.getD false = true then
                    updateAt fs1 j (fun f => { f with auto_id := true })
                  else fs1)[j]? = some pf₂ ∧ pf₂.dtype = pf₁.dtype := by
                have := hgetDT j
                rw [hpf₁] at this
                cases hg : (if kw.auto_id.getD false = true then
                    updateAt fs1 j (fun f => { f with auto_id := true })
                  else fs1)[j]? with
                | none => rw [hg] at this; exact Option.noConfusion this
                | some z =>
                  rw [hg] at this
                  exact ⟨z, rfl, Option.some.inj this⟩
              have hdict' : d = ⟨pf₂.auto_id, desc, ((if kw.auto_id.getD false = true then
                    updateAt fs1 j (fun f => { f with auto_id := true })
                  else fs1).map FieldSchema.to_dict),
                  if kw.enable_dynamic_field.getD false then some true else none⟩ := by
                unfold CollectionSchema.to_dict at hdict
                dsimp only at hdict
                rw [hpf₂] at hdict
                dsimp only [Option.map] at hdict
                exact (Option.some.inj hdict).symm
              subst hdict'
              refine ⟨_, ?_, rfl⟩
              unfold CollectionSchema.construct_from_dict
              dsimp only
              rw [mapM_construct _ hWF']
              dsimp only
              rw [init_check_on]
              unfold checkFieldsFull
              dsimp only
              rw [hloop2]
              dsimp only
              rw [hI2, hpi]
              simp only [Option.some_bind]
              rw [hpf₂]
              have hvp2 : validate_primary_key (some pf₂) = .ok () := by
                unfold validate_primary_key
                dsimp only
                rw [if_pos (show pf₂.dtype = DataType.INT64 ∨ pf₂.dtype = DataType.VARCHAR
                  by rw [hdt₂]; exact hdt₁)]
              rw [hvp2]
              dsimp only
              rw [hKI2]
              have hvk2 : validate_partition_key st2.pkName
                  (st.pkIdx.bind (fun i =>
                    (if kw.auto_id.getD false = true then
                      updateAt fs1 j (fun f => { f with auto_id := true })
                    else fs1)[i]?))
                  ((Option.map (fun f => f.name) (some pf₂)).getD "") = .ok () := by
                cases hki : st.pkIdx with
                | none =>
                  rw [hpkN2 hki]
                  rfl
                | some k =>
                  simp only [Option.some_bind]
                  rcases validate_partition_key_ok _ _ _
                      (by rw [hki] at hvk; exact hvk) with ⟨hpknone, hnnone⟩ | ⟨fk, hfk, hdtk⟩
                  · simp only [Option.some_bind] at hpknone
                    have hfsk' : (if kw.auto_id.getD false = true then
                        updateAt fs1 j (fun f => { f with auto_id := true })
                      else fs1)[k]? = none := by
                      have := hgetDT k
                      rw [hpknone] at this
                      cases hg : (if kw.auto_id.getD false = true then
                          updateAt fs1 j (fun f => { f with auto_id := true })
                        else fs1)[k]? with
                      | none => rfl
                      | some z => rw [hg] at this; exact Option.noConfusion this
                    rw [hfsk', hpkS2 (by rw [hki]; simp), hnnone]
                    rfl
                  · simp only [Option.some_bind] at hfk
                    have := hgetDT k
                    rw [hfk] at this
                    cases hg : (if kw.auto_id.getD false = true then
                        updateAt fs1 j (fun f => { f with auto_id := true })
                      else fs1)[k]? with
                    | none => rw [hg] at this; exact Option.noConfusion this
                    | some z =>
                      rw [hg] at this
                      have hdz : z.dtype = fk.dtype := Option.some.inj this
                      unfold validate_partition_key
                      dsimp only
                      rw [if_pos (show z.dtype = DataType.INT64 ∨ z.dtype = DataType.VARCHAR
                        by rw [hdz]; exact hdtk)]
              rw [hvk2]
              dsimp only
              simp only [Option.getD_none, Option.getD_some, Bool.false_eq_true, if_false]
              have hedf : ((if kw.enable_dynamic_field.getD false = true then some true
                  else none).getD false) = kw.enable_dynamic_field.getD false := by
                cases hb : kw.enable_dynamic_field.getD false
                · rw [if_neg Bool.false_ne_true]
                  rfl
                · rw [if_pos rfl]
                  rfl
              rw [hedf]
              simp only [Option.some_bind]
              rw [hpf₂]
    · unfold CollectionSchema.init at hinit
      rw [if_neg hcf] at hinit
      simp only [Except.ok.injEq] at hinit
      subst hinit
      simp [CollectionSchema.to_dict] at hdict

theorem C2_serialization_roundtrip_witness :
    (∃ g, FieldSchema.construct_from_dict
        (FieldSchema.to_dict
          ⟨"pk", DataType.INT64, "", [], true, false, true, false, none⟩) = .ok g ∧
      g.to_dict = FieldSchema.to_dict
          ⟨"pk", DataType.INT64, "", [], true, false, true, false, none⟩) ∧
    (∃ t, CollectionSchema.construct_from_dict
        ⟨true, "",
         [FieldSchema.to_dict ⟨"pk", DataType.INT64, "", [], true, false, true, false, none⟩,
          FieldSchema.to_dict ⟨"v", DataType.FLOAT_VECTOR, "", [("dim", PVal.i 4)],
            false, false, false, false, none⟩], none⟩ = .ok t ∧
      t.to_dict = CollectionSchema.to_dict
        ⟨[⟨"pk", DataType.INT64, "", [], true, false, true, false, none⟩,
          ⟨"v", DataType.FLOAT_VECTOR, "", [("dim", PVal.i 4)], false, false, false, false, none⟩],
         "", false,
         some ⟨"pk", DataType.INT64, "", [], true, false, true, false, none⟩, none⟩) :=
  ⟨C2_serialization_roundtrip.1 "pk" DataType.INT64 ""
      ⟨some true, none, some true, none, .pynone, []⟩
      ⟨"pk", DataType.INT64, "", [], true, false, true, false, none⟩ (by decide),
   C2_serialization_roundtrip.2
      [⟨"pk", DataType.INT64, "", [], true, false, true, false, none⟩,
       ⟨"v", DataType.FLOAT_VECTOR, "", [("dim", PVal.i 4)], false, false, false, false, none⟩]
      "" emptyCKw
      ⟨[⟨"pk", DataType.INT64, "", [], true, false, true, false, none⟩,
        ⟨"v", DataType.FLOAT_VECTOR, "", [("dim", PVal.i 4)], false, false, false, false, none⟩],
       "", false,
       some ⟨"pk", DataType.INT64, "", [], true, false, true, false, none⟩, none⟩
      ⟨true, "",
       [FieldSchema.to_dict ⟨"pk", DataType.INT64, "", [], true, false, true, false, none⟩,
        FieldSchema.to_dict ⟨"v", DataType.FLOAT_VECTOR, "", [("dim", PVal.i 4)],
          false, false, false, false, none⟩], none⟩
      (by decide) (by decide) (by decide)⟩

theorem C1_partition_key_eq_primary_accepted :
    FieldSchema.init "a" .INT64 "" ⟨some true, none, none, some true, .pynone, []⟩ =
      .ok ⟨"a", .INT64, "", [], true, false, false, true, none⟩ ∧
    CollectionSchema.init [⟨"a", .INT64, "", [], true, false, false, true, none⟩]
        "" emptyCKw =
      .ok ⟨[⟨"a", .INT64, "", [], true, false, false, true, none⟩], "", false,
           some ⟨"a", .INT64, "", [], true, false, false, true, none⟩,
           some ⟨"a", .INT64, "", [], true, false, false, true, none⟩⟩ := by
  constructor <;> rfl
